import Mathlib

/-!
Verification of the Netease_url repository against its specification.

The Python sources are shallowly embedded: Python `str` becomes `List Char`
(`PyStr`), bytes become `List Nat` (each element < 256), pure functions become
Lean functions, and network / filesystem effects become explicit oracle
parameters and state passing.  Every definition is translated from the source
files (`music_api.py`, `music_downloader.py`, `main.py`); definitions that
follow the specification text instead are clearly marked as such.
-/

namespace Netease

/-- Python strings are embedded as lists of characters. -/
abbrev PyStr := List Char

/-- Shorthand turning a Lean string literal into the embedded representation. -/
def pstr (s : String) : PyStr := s.data

/-- Embeds Python `a.startswith(b)` / prefix testing: `pfx p l` is true when
`p` is a prefix of `l`. -/
def pfx : PyStr → PyStr → Bool
  | [], _ => true
  | _ :: _, [] => false
  | a :: s, b :: t => a = b && pfx s t

/-- Embeds Python `sep in s` (substring containment). -/
def containsSub (sep : PyStr) : PyStr → Bool
  | [] => pfx sep []
  | c :: rest => pfx sep (c :: rest) || containsSub sep rest

/-- The characters strictly after the first occurrence of `sep`, when `sep`
occurs; embeds Python `s[s.find(sep) + len(sep):]` guarded by `find >= 0`. -/
def afterFirst (sep : PyStr) : PyStr → Option PyStr
  | [] => none
  | c :: rest =>
    if pfx sep (c :: rest) then some (List.drop sep.length (c :: rest))
    else afterFirst sep rest

/-- Splits at the first occurrence of `sep`, returning the part before and the
part after it. -/
def breakOnSub (sep : PyStr) : PyStr → Option (PyStr × PyStr)
  | [] => none
  | c :: rest =>
    if pfx sep (c :: rest) then some ([], List.drop sep.length (c :: rest))
    else
      match breakOnSub sep rest with
      | some (pre, post) => some (c :: pre, post)
      | none => none

/-- Fuel-driven worker for `pySplit`; the fuel bound makes the definition
structurally recursive and kernel-reducible. -/
def splitOnSubF (sep : PyStr) : Nat → PyStr → List PyStr
  | 0, l => [l]
  | fuel + 1, l =>
    match breakOnSub sep l with
    | none => [l]
    | some (pre, post) => pre :: splitOnSubF sep fuel post

/-- Embeds Python `s.split(sep)` for a non-empty separator. -/
def pySplit (s sep : PyStr) : List PyStr := splitOnSubF sep s.length s

/-- Fuel-driven worker for `pyReplace`. -/
def replaceF (sep rep : PyStr) : Nat → PyStr → PyStr
  | _, [] => []
  | 0, l => l
  | fuel + 1, c :: rest =>
    if pfx sep (c :: rest) then rep ++ replaceF sep rep fuel (List.drop sep.length (c :: rest))
    else c :: replaceF sep rep fuel rest

/-- Embeds Python `s.replace(sep, rep)` for a non-empty separator: every
occurrence is replaced, scanning left to right without overlap. -/
def pyReplace (s sep rep : PyStr) : PyStr := replaceF sep rep s.length s

/-- Embeds Python `s.split(sep)[0]` for a one-character separator, i.e. the
text up to the first occurrence of the separator character. -/
def upToChar (sep : Char) (s : PyStr) : PyStr := s.takeWhile (fun c => c ≠ sep)

/-- Membership of a character in a strip set, as used by `str.strip(' .')`. -/
def stripSet (cs : List Char) (c : Char) : Bool := cs.contains c

/-- Embeds Python `s.strip(chars)`: removes leading and trailing characters
belonging to `cs`. -/
def pyStripChars (cs : List Char) (s : PyStr) : PyStr :=
  ((s.dropWhile (stripSet cs)).reverse.dropWhile (stripSet cs)).reverse

/-- Python whitespace as stripped by `str.strip()` with no argument. -/
def pyWs (c : Char) : Bool :=
  c = ' ' || c = '\t' || c = '\n' || c = '\r' || c.toNat = 11 || c.toNat = 12

/-- Embeds Python `s.strip()` (whitespace stripping). -/
def pyStrip (s : PyStr) : PyStr :=
  ((s.dropWhile pyWs).reverse.dropWhile pyWs).reverse

/-- Embeds Python `s.split('\n')` via a right fold (splits at every newline,
never returns an empty list). -/
def splitLines (s : PyStr) : List PyStr :=
  s.foldr
    (fun c acc =>
      match acc with
      | cur :: rest => if c = '\n' then [] :: cur :: rest else (c :: cur) :: rest
      | [] => [[c]])
    [[]]

/-- Embeds joining lines with a newline, Python `newline.join(lines)`. -/
def joinLines (lines : List PyStr) : PyStr := List.intercalate ['\n'] lines

/-! ### Number and byte rendering -/

/-- Fuel-driven decimal digits of a natural number. -/
def natStrF : Nat → Nat → PyStr
  | 0, _ => []
  | fuel + 1, n =>
    if n < 10 then [Char.ofNat (48 + n)]
    else natStrF fuel (n / 10) ++ [Char.ofNat (48 + n % 10)]

/-- Decimal rendering of a natural number (Python `str(n)` for `n >= 0`). -/
def natStr (n : Nat) : PyStr := natStrF (n + 1) n

/-- Decimal rendering of an integer (Python `str(n)`). -/
def intStr (n : Int) : PyStr :=
  if n < 0 then '-' :: natStr n.natAbs else natStr n.toNat

/-- Lower-case hexadecimal digit for a nibble. -/
def hexDigitChar (n : Nat) : Char :=
  Char.ofNat (if n < 10 then 48 + n else 87 + n)

/-- Two lower-case hex digits of one byte; embeds `hex(d)[2:].zfill(2)` from
`CryptoUtils.hex_digest` (bytes are < 256 wherever this is applied). -/
def hexByte (b : Nat) : PyStr := [hexDigitChar (b / 16 % 16), hexDigitChar (b % 16)]

/-- Embeds `CryptoUtils.hex_digest`: lower-case hex encoding of a byte list. -/
def hex_digest (bytes : List Nat) : PyStr := (bytes.map hexByte).flatten

/-- UTF-8 encoding of a single character (code point → 1 to 4 bytes). -/
def utf8Char (c : Char) : List Nat :=
  let n := c.toNat
  if n < 128 then [n]
  else if n < 2048 then [192 + n / 64, 128 + n % 64]
  else if n < 65536 then [224 + n / 4096, 128 + n / 64 % 64, 128 + n % 64]
  else [240 + n / 262144, 128 + n / 4096 % 64, 128 + n / 64 % 64, 128 + n % 64]

/-- Embeds Python `s.encode("utf-8")`. -/
def utf8 (s : PyStr) : List Nat := (s.map utf8Char).flatten

/-! ### MD5 (RFC 1321), used by `CryptoUtils.hash_digest` -/

/-- Truncation to 32 bits. -/
def mask32 (x : Nat) : Nat := x % 4294967296

/-- Left rotation of a 32-bit word. -/
def rotl32 (x n : Nat) : Nat := mask32 ((x <<< n) ||| (x >>> (32 - n)))

/-- The 64 MD5 sine-table constants. -/
def md5K : List Nat :=
  [0xd76aa478, 0xe8c7b756, 0x242070db, 0xc1bdceee,
   0xf57c0faf, 0x4787c62a, 0xa8304613, 0xfd469501,
   0x698098d8, 0x8b44f7af, 0xffff5bb1, 0x895cd7be,
   0x6b901122, 0xfd987193, 0xa679438e, 0x49b40821,
   0xf61e2562, 0xc040b340, 0x265e5a51, 0xe9b6c7aa,
   0xd62f105d, 0x02441453, 0xd8a1e681, 0xe7d3fbc8,
   0x21e1cde6, 0xc33707d6, 0xf4d50d87, 0x455a14ed,
   0xa9e3e905, 0xfcefa3f8, 0x676f02d9, 0x8d2a4c8a,
   0xfffa3942, 0x8771f681, 0x6d9d6122, 0xfde5380c,
   0xa4beea44, 0x4bdecfa9, 0xf6bb4b60, 0xbebfbc70,
   0x289b7ec6, 0xeaa127fa, 0xd4ef3085, 0x04881d05,
   0xd9d4d039, 0xe6db99e5, 0x1fa27cf8, 0xc4ac5665,
   0xf4292244, 0x432aff97, 0xab9423a7, 0xfc93a039,
   0x655b59c3, 0x8f0ccc92, 0xffeff47d, 0x85845dd1,
   0x6fa87e4f, 0xfe2ce6e0, 0xa3014314, 0x4e0811a1,
   0xf7537e82, 0xbd3af235, 0x2ad7d2bb, 0xeb86d391]

/-- The 64 MD5 per-round rotation amounts. -/
def md5S : List Nat :=
  [7, 12, 17, 22, 7, 12, 17, 22, 7, 12, 17, 22, 7, 12, 17, 22,
   5, 9, 14, 20, 5, 9, 14, 20, 5, 9, 14, 20, 5, 9, 14, 20,
   4, 11, 16, 23, 4, 11, 16, 23, 4, 11, 16, 23, 4, 11, 16, 23,
   6, 10, 15, 21, 6, 10, 15, 21, 6, 10, 15, 21, 6, 10, 15, 21]

/-- The MD5 round function for step `i`. -/
def md5F (i b c d : Nat) : Nat :=
  if i < 16 then (b &&& c) ||| ((b ^^^ 0xffffffff) &&& d)
  else if i < 32 then (d &&& b) ||| ((d ^^^ 0xffffffff) &&& c)
  else if i < 48 then b ^^^ c ^^^ d
  else c ^^^ (b ||| (d ^^^ 0xffffffff))

/-- The MD5 message-word index for step `i`. -/
def md5G (i : Nat) : Nat :=
  if i < 16 then i
  else if i < 32 then (5 * i + 1) % 16
  else if i < 48 then (3 * i + 5) % 16
  else (7 * i) % 16

/-- One MD5 step on the state `(a, b, c, d)` with message words `m`. -/
def md5Step (m : List Nat) (st : Nat × Nat × Nat × Nat) (i : Nat) :
    Nat × Nat × Nat × Nat :=
  let (a, b, c, d) := st
  let f := mask32 (md5F i b c d + a + md5K.getD i 0 + m.getD (md5G i) 0)
  (d, mask32 (b + rotl32 f (md5S.getD i 0)), b, c)

/-- Groups a byte list into 32-bit little-endian words. -/
def leWords : List Nat → List Nat
  | b0 :: b1 :: b2 :: b3 :: rest =>
    (b0 + 256 * b1 + 65536 * b2 + 16777216 * b3) :: leWords rest
  | _ => []

/-- Little-endian bytes of one 32-bit word. -/
def leBytes (w : Nat) : List Nat :=
  [w % 256, w / 256 % 256, w / 65536 % 256, w / 16777216 % 256]

/-- Fuel-driven grouping of a list into chunks of size `n`. -/
def chunksF (n : Nat) : Nat → List Nat → List (List Nat)
  | _, [] => []
  | 0, l => [l]
  | fuel + 1, l => l.take n :: chunksF n fuel (l.drop n)

/-- MD5 padding: `0x80`, zeros to 56 mod 64, then the 64-bit little-endian
bit length. -/
def md5pad (msg : List Nat) : List Nat :=
  let len := msg.length
  let zeros := (120 - (len + 1) % 64) % 64
  let bitLen := 8 * len
  msg ++ [128] ++ List.replicate zeros 0 ++
    (List.range 8).map (fun i => bitLen >>> (8 * i) % 256)

/-- Processes one 64-byte MD5 chunk, updating the running digest state. -/
def md5Chunk (st : Nat × Nat × Nat × Nat) (chunk : List Nat) :
    Nat × Nat × Nat × Nat :=
  let m := leWords chunk
  let (a, b, c, d) := (List.range 64).foldl (md5Step m) st
  let (a0, b0, c0, d0) := st
  (mask32 (a0 + a), mask32 (b0 + b), mask32 (c0 + c), mask32 (d0 + d))

/-- Embeds `CryptoUtils.hash_digest`: the 16-byte MD5 digest of a byte list. -/
def md5Bytes (msg : List Nat) : List Nat :=
  let padded := md5pad msg
  let (a, b, c, d) :=
    (chunksF 64 padded.length padded).foldl md5Chunk
      (0x67452301, 0xefcdab89, 0x98badcfe, 0x10325476)
  leBytes a ++ leBytes b ++ leBytes c ++ leBytes d

/-- Embeds `CryptoUtils.hash_hex_digest`: lower-case hex MD5 of a string. -/
def hash_hex_digest (text : PyStr) : PyStr := hex_digest (md5Bytes (utf8 text))

/-! ### AES-128 / ECB (FIPS 197), used by `CryptoUtils.encrypt_params` -/

/-- The AES S-box. -/
def sbox : List Nat :=
  [0x63, 0x7c, 0x77, 0x7b, 0xf2, 0x6b, 0x6f, 0xc5, 0x30, 0x01, 0x67, 0x2b, 0xfe, 0xd7, 0xab, 0x76,
   0xca, 0x82, 0xc9, 0x7d, 0xfa, 0x59, 0x47, 0xf0, 0xad, 0xd4, 0xa2, 0xaf, 0x9c, 0xa4, 0x72, 0xc0,
   0xb7, 0xfd, 0x93, 0x26, 0x36, 0x3f, 0xf7, 0xcc, 0x34, 0xa5, 0xe5, 0xf1, 0x71, 0xd8, 0x31, 0x15,
   0x04, 0xc7, 0x23, 0xc3, 0x18, 0x96, 0x05, 0x9a, 0x07, 0x12, 0x80, 0xe2, 0xeb, 0x27, 0xb2, 0x75,
   0x09, 0x83, 0x2c, 0x1a, 0x1b, 0x6e, 0x5a, 0xa0, 0x52, 0x3b, 0xd6, 0xb3, 0x29, 0xe3, 0x2f, 0x84,
   0x53, 0xd1, 0x00, 0xed, 0x20, 0xfc, 0xb1, 0x5b, 0x6a, 0xcb, 0xbe, 0x39, 0x4a, 0x4c, 0x58, 0xcf,
   0xd0, 0xef, 0xaa, 0xfb, 0x43, 0x4d, 0x33, 0x85, 0x45, 0xf9, 0x02, 0x7f, 0x50, 0x3c, 0x9f, 0xa8,
   0x51, 0xa3, 0x40, 0x8f, 0x92, 0x9d, 0x38, 0xf5, 0xbc, 0xb6, 0xda, 0x21, 0x10, 0xff, 0xf3, 0xd2,
   0xcd, 0x0c, 0x13, 0xec, 0x5f, 0x97, 0x44, 0x17, 0xc4, 0xa7, 0x7e, 0x3d, 0x64, 0x5d, 0x19, 0x73,
   0x60, 0x81, 0x4f, 0xdc, 0x22, 0x2a, 0x90, 0x88, 0x46, 0xee, 0xb8, 0x14, 0xde, 0x5e, 0x0b, 0xdb,
   0xe0, 0x32, 0x3a, 0x0a, 0x49, 0x06, 0x24, 0x5c, 0xc2, 0xd3, 0xac, 0x62, 0x91, 0x95, 0xe4, 0x79,
   0xe7, 0xc8, 0x37, 0x6d, 0x8d, 0xd5, 0x4e, 0xa9, 0x6c, 0x56, 0xf4, 0xea, 0x65, 0x7a, 0xae, 0x08,
   0xba, 0x78, 0x25, 0x2e, 0x1c, 0xa6, 0xb4, 0xc6, 0xe8, 0xdd, 0x74, 0x1f, 0x4b, 0xbd, 0x8b, 0x8a,
   0x70, 0x3e, 0xb5, 0x66, 0x48, 0x03, 0xf6, 0x0e, 0x61, 0x35, 0x57, 0xb9, 0x86, 0xc1, 0x1d, 0x9e,
   0xe1, 0xf8, 0x98, 0x11, 0x69, 0xd9, 0x8e, 0x94, 0x9b, 0x1e, 0x87, 0xe9, 0xce, 0x55, 0x28, 0xdf,
   0x8c, 0xa1, 0x89, 0x0d, 0xbf, 0xe6, 0x42, 0x68, 0x41, 0x99, 0x2d, 0x0f, 0xb0, 0x54, 0xbb, 0x16]

/-- S-box lookup. -/
def sboxAt (n : Nat) : Nat := sbox.getD n 0

/-- Multiplication by `x` in GF(2^8). -/
def xtime (b : Nat) : Nat := if b < 128 then b * 2 else (b * 2) ^^^ 0x11b

/-- AES round constants. -/
def rcon : List Nat := [1, 2, 4, 8, 16, 32, 64, 128, 27, 54]

/-- Byte-wise xor of two equal-length words. -/
def xorW (a b : List Nat) : List Nat := List.zipWith (· ^^^ ·) a b

/-- S-box substitution applied to each byte of a word. -/
def subWord (w : List Nat) : List Nat := w.map sboxAt

/-- One-byte left rotation of a word. -/
def rotWord : List Nat → List Nat
  | a :: rest => rest ++ [a]
  | [] => []

/-- Extends the key-schedule word list by `n` further 4-byte words. -/
def expandWords : Nat → List (List Nat) → List (List Nat)
  | 0, ws => ws
  | n + 1, ws =>
    let i := ws.length
    let prev := ws.getD (i - 1) []
    let w4 := ws.getD (i - 4) []
    let nw :=
      if i % 4 == 0 then
        xorW w4 (xorW (subWord (rotWord prev)) [rcon.getD (i / 4 - 1) 0, 0, 0, 0])
      else xorW w4 prev
    expandWords n (ws ++ [nw])

/-- The eleven 16-byte round keys derived from a 16-byte AES-128 key. -/
def roundKeys (key : List Nat) : List (List Nat) :=
  let ws := expandWords 40 (chunksF 4 key.length key)
  (chunksF 16 44 ws.flatten)

/-- AES ShiftRows on a column-major 16-byte state. -/
def shiftRowsL (st : List Nat) : List Nat :=
  [0, 5, 10, 15, 4, 9, 14, 3, 8, 13, 2, 7, 12, 1, 6, 11].map (fun i => st.getD i 0)

/-- AES MixColumns applied to all four columns of the state. -/
def mixColumns : List Nat → List Nat
  | a0 :: a1 :: a2 :: a3 :: rest =>
    (xtime a0 ^^^ (xtime a1 ^^^ a1) ^^^ a2 ^^^ a3) ::
    (a0 ^^^ xtime a1 ^^^ (xtime a2 ^^^ a2) ^^^ a3) ::
    (a0 ^^^ a1 ^^^ xtime a2 ^^^ (xtime a3 ^^^ a3)) ::
    ((xtime a0 ^^^ a0) ^^^ a1 ^^^ a2 ^^^ xtime a3) :: mixColumns rest
  | l => l

/-- AES-128 encryption of a single 16-byte block. -/
def encryptBlock (rks : List (List Nat)) (blk : List Nat) : List Nat :=
  let st0 := xorW blk (rks.getD 0 [])
  let core := (List.range 9).foldl
    (fun st r => xorW (mixColumns (shiftRowsL (st.map sboxAt))) (rks.getD (r + 1) [])) st0
  xorW (shiftRowsL (core.map sboxAt)) (rks.getD 10 [])

/-- AES-128 / ECB encryption of a (block-aligned) byte list. -/
def aesEcbEncrypt (key data : List Nat) : List Nat :=
  let rks := roundKeys key
  ((chunksF 16 data.length data).map (encryptBlock rks)).flatten

/-- PKCS#7 padding to the 16-byte AES block size, as produced by
`padding.PKCS7(...).padder()` (always appends at least one byte). -/
def pkcs7pad (data : List Nat) : List Nat :=
  let k := 16 - data.length % 16
  data ++ List.replicate k k

/-! ### Python `json.dumps` for the request payloads

Every payload passed to `CryptoUtils.encrypt_params` in the sources is a flat
dict whose values are strings, integers, booleans or lists of integers
(`ids`, `level`, `encodeType`, `header`, `immerseType`, `type`, `key`), so the
payload embedding covers exactly those shapes. -/

/-- A payload value: the JSON value shapes used by the repository's payloads. -/
inductive PyVal
  | vs (s : PyStr)
  | vi (n : Int)
  | vlist (l : List Int)
  | vb (b : Bool)

/-- A request payload: an insertion-ordered Python dict. -/
abbrev Payload := List (PyStr × PyVal)

/-- Four lower-case hex digits of a 16-bit value. -/
def hex4 (n : Nat) : PyStr :=
  [hexDigitChar (n / 4096 % 16), hexDigitChar (n / 256 % 16),
   hexDigitChar (n / 16 % 16), hexDigitChar (n % 16)]

/-- Python `json.dumps` escaping of one character (default `ensure_ascii`). -/
def jsonEscChar (c : Char) : PyStr :=
  let n := c.toNat
  if c = '"' then ['\\', '"']
  else if c = '\\' then ['\\', '\\']
  else if c = '\n' then ['\\', 'n']
  else if c = '\r' then ['\\', 'r']
  else if c = '\t' then ['\\', 't']
  else if n = 8 then ['\\', 'b']
  else if n = 12 then ['\\', 'f']
  else if n < 32 || n > 126 then
    if n < 65536 then '\\' :: 'u' :: hex4 n
    else ('\\' :: 'u' :: hex4 (55296 + (n - 65536) / 1024)) ++
         ('\\' :: 'u' :: hex4 (56320 + (n - 65536) % 1024))
  else [c]

/-- Python JSON rendering of a string. -/
def jsonStr (s : PyStr) : PyStr := '"' :: (s.map jsonEscChar).flatten ++ ['"']

/-- Python JSON rendering of a payload value. -/
def jsonVal : PyVal → PyStr
  | .vs s => jsonStr s
  | .vi n => intStr n
  | .vlist l => '[' :: List.intercalate (pstr ", ") (l.map intStr) ++ [']']
  | .vb b => if b then pstr "true" else pstr "false"

/-- Embeds Python `json.dumps(payload)` with its default separators. -/
def jsonDumps (p : Payload) : PyStr :=
  '{' :: List.intercalate (pstr ", ")
    (p.map (fun kv => jsonStr kv.1 ++ pstr ": " ++ jsonVal kv.2)) ++ ['}']

/-! ### `CryptoUtils.encrypt_params` -/

/-- The path component of a URL, as computed by `urllib.parse.urlparse(url).path`
for the absolute URLs used by the module. -/
def urlPath (u : PyStr) : PyStr :=
  match afterFirst (pstr "://") u with
  | some r => (r.dropWhile (fun c => c ≠ '/')).takeWhile (fun c => c ≠ '?' && c ≠ '#')
  | none => u.takeWhile (fun c => c ≠ '?' && c ≠ '#')

/-- The fixed request-signing key `APIConstants.AES_KEY = b"e82ckenh8dichen8"`. -/
def AES_KEY : List Nat := utf8 (pstr "e82ckenh8dichen8")

/-- Embeds `CryptoUtils.encrypt_params` (music_api.py lines 88-102). -/
def encrypt_params (url : PyStr) (payload : Payload) : PyStr :=
  let url_path := pyReplace (urlPath url) (pstr "/eapi/") (pstr "/api/")
  let digest := hash_hex_digest
    (pstr "nobody" ++ url_path ++ pstr "use" ++ jsonDumps payload ++ pstr "md5forencrypt")
  let params := url_path ++ pstr "-36cd479b6b5-" ++ jsonDumps payload ++
    pstr "-36cd479b6b5-" ++ digest
  let padded := pkcs7pad (utf8 params)
  hex_digest (aesEcbEncrypt AES_KEY padded)

/-- One hex digit, rendered through an index into a digit table.  Part of the
spec-side formulation of the signing recipe (claim C1). -/
def specHexDigit (n : Nat) : Char := (pstr "0123456789abcdef").getD n '0'

/-- One byte as two lower-case hex digits, spec-side formulation. -/
def specHexByte (b : Nat) : PyStr := [specHexDigit (b >>> 4 % 16), specHexDigit (b % 16)]

/-- Modelled from the spec (section 4.1 `sign` and claim C1): map the path's
`/eapi/` prefix to `/api/`, MD5 the `"nobody" .. "use" .. "md5forencrypt"`
concatenation as lowercase hex, build the `-36cd479b6b5-` composite, PKCS#7-pad
to the AES block size, AES-ECB-encrypt under the fixed 16-byte key, and
hex-encode the ciphertext.  This is the refinement-claim counterpart of
`encrypt_params`, written from the spec's words. -/
def sign_spec (url : PyStr) (payload : Payload) : PyStr :=
  let p0 := urlPath url
  let plainPath := if pfx (pstr "/eapi/") p0 = true then pstr "/api/" ++ List.drop 6 p0 else p0
  let digestHex := ((md5Bytes (utf8 (pstr "nobody" ++ plainPath ++ pstr "use" ++
    jsonDumps payload ++ pstr "md5forencrypt"))).map specHexByte).flatten
  let composite := plainPath ++ pstr "-36cd479b6b5-" ++ jsonDumps payload ++
    pstr "-36cd479b6b5-" ++ digestHex
  let body := utf8 composite
  let padded := body ++ List.replicate (16 - body.length % 16) (16 - body.length % 16)
  ((aesEcbEncrypt (utf8 (pstr "e82ckenh8dichen8")) padded).map specHexByte).flatten

/-! ### Endpoint constants and request payloads (music_api.py) -/

/-- Endpoint `APIConstants.SONG_URL_V1`. -/
def SONG_URL_V1 : PyStr := pstr "https://interface3.music.163.com/eapi/song/enhance/player/url/v1"

/-- Endpoint `APIConstants.QR_LOGIN_API`. -/
def QR_LOGIN_API : PyStr := pstr "https://interface3.music.163.com/eapi/login/qrcode/client/login"

/-- Constant `APIConstants.DEFAULT_CONFIG`, in Python dict insertion order. -/
def DEFAULT_CONFIG : Payload :=
  [(pstr "os", .vs (pstr "pc")), (pstr "appver", .vs []),
   (pstr "osver", .vs []), (pstr "deviceId", .vs (pstr "pyncm!"))]

/-- The `header` payload field: `json.dumps` of `DEFAULT_CONFIG` with the
random `requestId` appended (the random draw is passed in as a parameter). -/
def configHeader (requestId : PyStr) : PyStr :=
  jsonDumps (DEFAULT_CONFIG ++ [(pstr "requestId", .vs requestId)])

/-- Embeds the payload built by `NeteaseAPI.get_song_url`
(music_api.py lines 173-185): the base dict, with `immerseType` appended
exactly when the quality is `sky`. -/
def song_url_payload (song_id : Int) (quality : PyStr) (requestId : PyStr) : Payload :=
  let base : Payload :=
    [(pstr "ids", .vlist [song_id]), (pstr "level", .vs quality),
     (pstr "encodeType", .vs (pstr "flac")), (pstr "header", .vs (configHeader requestId))]
  if quality = pstr "sky" then base ++ [(pstr "immerseType", .vs (pstr "c51"))] else base

/-- Modelled from the spec (section 6 and claim C7): the stream-URL request is
`{ids:[id], level, encodeType:"flac", header:<json config>}` plus
`immerseType:"c51"` exactly when the level is `sky`.  Refinement-claim
counterpart of `song_url_payload`. -/
def song_url_payload_spec (song_id : Int) (quality : PyStr) (requestId : PyStr) : Payload :=
  [(pstr "ids", .vlist [song_id]), (pstr "level", .vs quality),
   (pstr "encodeType", .vs (pstr "flac")), (pstr "header", .vs (configHeader requestId))] ++
  (if quality = pstr "sky" then [(pstr "immerseType", .vs (pstr "c51"))] else [])

/-- Payload dict lookup (Python `payload.get(key)`). -/
def plookup : Payload → PyStr → Option PyVal
  | [], _ => none
  | (k, v) :: rest, key => if k = key then some v else plookup rest key

/-- Embeds the payload built by `QRLoginManager.check_qr_login`
(music_api.py lines 558-562). -/
def qr_login_payload (unikey requestId : PyStr) : Payload :=
  [(pstr "key", .vs unikey), (pstr "type", .vi 1),
   (pstr "header", .vs (configHeader requestId))]

/-! ### JSON response values and Python exceptions

Decoded JSON response bodies are embedded as `JVal`; the transport plus
`json.loads` step (both external library code) is an oracle input of type
`RespOutcome`.  Python exception objects are embedded as `PyExc`, with one
constructor per exception class that the sources raise or catch; `pyError`
stands for any other exception escaping uncaught (`AttributeError`,
`TypeError`, `KeyError` outside a catching handler). -/

/-- A decoded JSON value. -/
inductive JVal
  | jnull
  | jbool (b : Bool)
  | jint (n : Int)
  | jstr (s : PyStr)
  | jarr (items : List JVal)
  | jobj (fields : List (PyStr × JVal))

/-- Embedded Python exceptions. -/
inductive PyExc
  | apiException (msg : PyStr)
  | downloadException (msg : PyStr)
  | pyError (msg : PyStr)

/-- The message carried by an exception (Python `str(e)`). -/
def excMsg : PyExc → PyStr
  | .apiException m => m
  | .downloadException m => m
  | .pyError m => m

/-- Outcome of one HTTP call followed by JSON decoding: the transport raised
(`requests.RequestException`, including timeouts and bad HTTP status), the
body failed to parse, or a decoded body. -/
inductive RespOutcome
  | transportFail (msg : PyStr)
  | badJson (msg : PyStr)
  | ok (v : JVal)

/-- Object-field lookup. -/
def lookupJ : List (PyStr × JVal) → PyStr → Option JVal
  | [], _ => none
  | (k, v) :: rest, key => if k = key then some v else lookupJ rest key

/-- Embeds Python `v.get(key)` on a decoded dict (`none` on non-dicts, whose
`.get` access is modelled separately as an `AttributeError`). -/
def jget : JVal → PyStr → Option JVal
  | .jobj fields, key => lookupJ fields key
  | _, _ => none

/-- Whether a decoded value is a dict. -/
def isDict : JVal → Bool
  | .jobj _ => true
  | _ => false

/-- Python truthiness of an optional field value (`if not x`). -/
def jTruthy : Option JVal → Bool
  | none => false
  | some .jnull => false
  | some (.jbool b) => b
  | some (.jint n) => n != 0
  | some (.jstr s) => !s.isEmpty
  | some (.jarr l) => !l.isEmpty
  | some (.jobj f) => !f.isEmpty

/-- String field with a default: embeds `d.get(key, default)` at the places
where the sources expect a string (non-string presences collapse to the
default; they can only arise from malformed server envelopes). -/
def jStrOr (o : Option JVal) (dflt : PyStr) : PyStr :=
  match o with
  | some (.jstr s) => s
  | _ => dflt

/-- Integer field with a default, same convention as `jStrOr`. -/
def jIntOr (o : Option JVal) (dflt : Int) : Int :=
  match o with
  | some (.jint n) => n
  | _ => dflt

/-- Dict field with an empty-dict default: embeds `d.get(key, {})`. -/
def jObjOrEmpty (o : Option JVal) : JVal :=
  match o with
  | some x => x
  | none => .jobj []

/-- List field with an empty-list default: embeds `d.get(key, [])` where the
value is then iterated. -/
def jArrOr (o : Option JVal) : List JVal :=
  match o with
  | some (.jarr l) => l
  | _ => []

/-- Fuel-driven Python `repr` of a decoded value (used only to render error
message suffixes; string-internal quote escaping is not reproduced). -/
def pyRepr : Nat → JVal → PyStr
  | _, .jnull => pstr "None"
  | _, .jbool b => if b then pstr "True" else pstr "False"
  | _, .jint n => intStr n
  | _, .jstr s => Char.ofNat 39 :: s ++ [Char.ofNat 39]
  | 0, _ => []
  | fuel + 1, .jarr items => '[' :: List.intercalate (pstr ", ") (items.map (pyRepr fuel)) ++ [']']
  | fuel + 1, .jobj fields =>
    '{' :: List.intercalate (pstr ", ")
      (fields.map (fun kv => pyRepr fuel (.jstr kv.1) ++ pstr ": " ++ pyRepr fuel kv.2)) ++ ['}']

mutual

/-- Size of a decoded value, giving sufficient fuel for `pyRepr`. -/
def jsize : JVal → Nat
  | .jnull => 1
  | .jbool _ => 1
  | .jint _ => 1
  | .jstr _ => 1
  | .jarr items => 1 + jsizeL items
  | .jobj fields => 1 + jsizeF fields

/-- Size of a list of decoded values. -/
def jsizeL : List JVal → Nat
  | [] => 0
  | v :: rest => jsize v + jsizeL rest

/-- Size of a decoded object's field list. -/
def jsizeF : List (PyStr × JVal) → Nat
  | [] => 0
  | (_, v) :: rest => jsize v + jsizeF rest

end

/-- Python `str` of a decoded value, as interpolated into f-strings. -/
def jvalStr (v : JVal) : PyStr :=
  match v with
  | .jstr s => s
  | v => pyRepr (jsize v) v

/-- Embeds `result.get('message', '未知错误')` rendered into an f-string. -/
def getMessage (v : JVal) : PyStr :=
  match jget v (pstr "message") with
  | some m => jvalStr m
  | none => pstr "未知错误"

/-- The envelope's numeric `code` field, when it is an integer. -/
def envelopeCode (v : JVal) : Option Int :=
  match jget v (pstr "code") with
  | some (.jint n) => some n
  | _ => none

/-! ### `NeteaseAPI` calls (music_api.py)

Each call takes its transport outcome as an oracle argument.  The exception
translation mirrors the source's `try` / `except` structure:
`HTTPClient.post_request` turns any `requests.RequestException` into
`APIException("HTTP请求失败: ..")`, which propagates (only
`json.JSONDecodeError` / `KeyError` are re-caught inside the API methods), and
an envelope whose top-level `code` is not 200 raises an `APIException` with
the method-specific message. -/

/-- Embeds `NeteaseAPI.get_song_url` (music_api.py lines 159-196); the payload
construction is `song_url_payload`, and the decoded response handling is as in
the source. -/
def get_song_url (resp : RespOutcome) : Except PyExc JVal :=
  match resp with
  | .transportFail m => .error (.apiException (pstr "HTTP请求失败: " ++ m))
  | .badJson m => .error (.apiException (pstr "解析响应数据失败: " ++ m))
  | .ok v =>
    match v with
    | .jobj _ =>
      if envelopeCode v = some 200 then .ok v
      else .error (.apiException (pstr "获取歌曲URL失败: " ++ getMessage v))
    | _ => .error (.pyError (pstr "AttributeError"))

/-- Embeds `NeteaseAPI.get_song_detail` (music_api.py lines 198-223). -/
def get_song_detail (resp : RespOutcome) : Except PyExc JVal :=
  match resp with
  | .transportFail m => .error (.apiException (pstr "获取歌曲详情请求失败: " ++ m))
  | .badJson m => .error (.apiException (pstr "解析歌曲详情响应失败: " ++ m))
  | .ok v =>
    match v with
    | .jobj _ =>
      if envelopeCode v = some 200 then .ok v
      else .error (.apiException (pstr "获取歌曲详情失败: " ++ getMessage v))
    | _ => .error (.pyError (pstr "AttributeError"))

/-- Embeds `NeteaseAPI.get_lyric` (music_api.py lines 225-268). -/
def get_lyric (resp : RespOutcome) : Except PyExc JVal :=
  match resp with
  | .transportFail m => .error (.apiException (pstr "获取歌词请求失败: " ++ m))
  | .badJson m => .error (.apiException (pstr "解析歌词响应失败: " ++ m))
  | .ok v =>
    match v with
    | .jobj _ =>
      if envelopeCode v = some 200 then .ok v
      else .error (.apiException (pstr "获取歌词失败: " ++ getMessage v))
    | _ => .error (.pyError (pstr "AttributeError"))

/-! ### `MusicDownloader` (music_downloader.py)

The three resolution calls and the two plain GETs (audio stream, cover image)
become oracle fields of `Env`.  The local filesystem is a path → byte-size
map `FS`; tag embedding rewrites the audio file in place and never touches
any other path, so it is modelled as leaving the store unchanged. -/

/-- Embedded `MusicInfo` dataclass (music_downloader.py lines 51-66). -/
structure MusicInfo where
  id : Int
  name : PyStr
  artists : PyStr
  album : PyStr
  pic_url : PyStr
  duration : Int
  track_number : Int
  download_url : PyStr
  file_type : PyStr
  file_size : Int
  quality : PyStr
  lyric : PyStr
  tlyric : PyStr

/-- Embedded `DownloadResult` dataclass (music_downloader.py lines 69-76),
without the `music_info` payload field. -/
structure DownloadResult where
  success : Bool
  file_path : Option PyStr
  file_size : Int
  error_message : PyStr

/-- Oracle bundle for one track's downloads: the three resolution responses
and the two plain GET outcomes (content bytes or a raised transport error). -/
structure Env where
  urlResp : RespOutcome
  detailResp : RespOutcome
  lyricResp : RespOutcome
  fileResp : Except PyStr (List Nat)
  picResp : Except PyStr (List Nat)

/-- The filesystem: existing files with their byte sizes. -/
abbrev FS := List (PyStr × Nat)

/-- Embeds `Path.exists` / `Path.stat().st_size` on the modelled filesystem. -/
def fsLookup : FS → PyStr → Option Nat
  | [], _ => none
  | (p, n) :: rest, q => if p = q then some n else fsLookup rest q

/-- Embeds ASCII lower-casing (Python `s.lower()` on the URL / type strings). -/
def pyLower (s : PyStr) : PyStr := s.map Char.toLower

/-- Embeds `MusicDownloader._determine_file_extension` for its only call site
(music_downloader.py line 276), where `content_type` is the default `""`. -/
def determine_file_extension (url : PyStr) : PyStr :=
  if containsSub (pstr ".flac") (pyLower url) then pstr ".flac"
  else if containsSub (pstr ".mp3") (pyLower url) then pstr ".mp3"
  else if containsSub (pstr ".m4a") (pyLower url) then pstr ".m4a"
  else pstr ".mp3"

/-- The character class replaced by `_sanitize_filename`'s
`re.sub(r'[<>:"/\\|?*]', '_', ..)`. -/
def ILLEGAL_CHARS : List Char := ['<', '>', ':', '"', '/', '\\', '|', '?', '*']

/-- One step of the `re.sub`: an illegal character becomes an underscore. -/
def sanitizeSub (c : Char) : Char := if ILLEGAL_CHARS.contains c then '_' else c

/-- Embeds `MusicDownloader._sanitize_filename` (music_downloader.py lines
126-146; `MusicAPIService._sanitize_filename` in main.py lines 150-161 is
textually identical): substitute illegal characters, strip leading/trailing
spaces and dots, cap at 200 characters, default to `"unknown"`. -/
def sanitize_filename (filename : PyStr) : PyStr :=
  let f1 := filename.map sanitizeSub
  let f2 := pyStripChars [' ', '.'] f1
  let f3 := if 200 < f2.length then f2.take 200 else f2
  if f3 = [] then pstr "unknown" else f3

/-- Names of the artists in a decoded `ar` list: `artist['name']` for each
element; `none` embeds the `KeyError` / attribute error on malformed items. -/
def artistNames : List JVal → Option (List PyStr)
  | [] => some []
  | a :: rest =>
    match jget a (pstr "name") with
    | some (.jstr s) => (artistNames rest).map (s :: ·)
    | _ => none

/-- Embeds `'/'.join(..)` over artist names. -/
def joinSlash (l : List PyStr) : PyStr := List.intercalate ['/'] l

/-- Embeds `lyric_result.get(outer, {}).get('lyric', '')`
(music_downloader.py lines 222-223). -/
def lrcText (v : JVal) (outer : PyStr) : PyStr :=
  match jget v outer with
  | some l => jStrOr (jget l (pstr "lyric")) []
  | none => []

/-- Exception translation of `MusicDownloader.get_music_info`'s handlers
(music_downloader.py lines 256-261): an `APIException` is re-raised as
`DownloadException("API调用失败: ..")`, anything else — including the
`DownloadException`s raised inside the `try` — as
`DownloadException("获取音乐信息时发生错误: ..")`. -/
def wrapInfoErr : PyExc → PyExc
  | .apiException m => .downloadException (pstr "API调用失败: " ++ m)
  | .downloadException m => .downloadException (pstr "获取音乐信息时发生错误: " ++ m)
  | .pyError m => .downloadException (pstr "获取音乐信息时发生错误: " ++ m)

/-- The body of `MusicDownloader.get_music_info` (music_downloader.py lines
190-254) before its exception handlers; the second component counts the
network calls performed (stream-URL, detail and lyric resolution calls). -/
def get_music_info_raw (env : Env) (mid : Int) (q : PyStr) :
    Except PyExc MusicInfo × Nat :=
  match get_song_url env.urlResp with
  | .error e => (.error e, 1)
  | .ok urlRes =>
    if jTruthy (jget urlRes (pstr "data")) = false then
      (.error (.downloadException (pstr "无法获取音乐ID " ++ intStr mid ++ pstr " 的播放链接")), 1)
    else
      match jget urlRes (pstr "data") with
      | some (.jarr (songData :: _)) =>
        let download_url := jStrOr (jget songData (pstr "url")) []
        if download_url = [] then
          (.error (.downloadException (pstr "音乐ID " ++ intStr mid ++ pstr " 无可用的下载链接")), 1)
        else
          match get_song_detail env.detailResp with
          | .error e => (.error e, 2)
          | .ok detailRes =>
            if jTruthy (jget detailRes (pstr "songs")) = false then
              (.error (.downloadException (pstr "无法获取音乐ID " ++ intStr mid ++ pstr " 的详细信息")), 2)
            else
              match jget detailRes (pstr "songs") with
              | some (.jarr (songDetail :: _)) =>
                match get_lyric env.lyricResp with
                | .error e => (.error e, 3)
                | .ok lyricRes =>
                  match artistNames (jArrOr (jget songDetail (pstr "ar"))) with
                  | none => (.error (.pyError (pstr "KeyError")), 3)
                  | some names =>
                    let al := jObjOrEmpty (jget songDetail (pstr "al"))
                    (.ok
                      ⟨mid,
                       jStrOr (jget songDetail (pstr "name")) (pstr "未知歌曲"),
                       (if joinSlash names = [] then pstr "未知艺术家" else joinSlash names),
                       jStrOr (jget al (pstr "name")) (pstr "未知专辑"),
                       jStrOr (jget al (pstr "picUrl")) [],
                       Int.fdiv (jIntOr (jget songDetail (pstr "dt")) 0) 1000,
                       jIntOr (jget songDetail (pstr "no")) 0,
                       download_url,
                       pyLower (jStrOr (jget songData (pstr "type")) (pstr "mp3")),
                       jIntOr (jget songData (pstr "size")) 0,
                       q,
                       lrcText lyricRes (pstr "lrc"),
                       lrcText lyricRes (pstr "tlyric")⟩, 3)
              | _ => (.error (.pyError (pstr "TypeError")), 2)
      | _ => (.error (.pyError (pstr "TypeError")), 1)

/-- Embeds `MusicDownloader.get_music_info` (music_downloader.py lines
177-261), returning the result together with the number of resolution
network calls performed. -/
def get_music_info (env : Env) (mid : Int) (q : PyStr) :
    Except PyExc MusicInfo × Nat :=
  match get_music_info_raw env mid q with
  | (.error e, n) => (.error (wrapInfoErr e), n)
  | (.ok i, n) => (.ok i, n)

/-- Network calls performed by `_write_music_tags`: one cover-image GET when
a cover URL is present (its failure is caught and logged, never fatal). -/
def tagNetworkCalls (info : MusicInfo) : Nat := if info.pic_url = [] then 0 else 1

/-- The destination path `download_dir / f"{safe_filename}{file_ext}"`
(music_downloader.py lines 271-277). -/
def mkFilePath (downloadDir : PyStr) (info : MusicInfo) : PyStr :=
  downloadDir ++ '/' :: sanitize_filename (info.artists ++ pstr " - " ++ info.name) ++
    determine_file_extension info.download_url

/-- Embeds `MusicDownloader.download_music_file` (music_downloader.py lines
263-330).  Returns the result, the filesystem afterwards, the number of
resolution network calls, and the number of plain-transfer network calls
(stream GET plus cover GET).  The source returns absolute path strings; the
model keeps the relative `downloads/..` form on both branches. -/
def download_music_file (env : Env) (downloadDir : PyStr) (fs : FS)
    (mid : Int) (q : PyStr) : DownloadResult × FS × Nat × Nat :=
  match get_music_info env mid q with
  | (.error e, n) =>
    (⟨false, none, 0, pstr "下载过程中发生错误: " ++ excMsg e⟩, fs, n, 0)
  | (.ok info, n) =>
    let path := mkFilePath downloadDir info
    match fsLookup fs path with
    | some sz => (⟨true, some path, (sz : Int), []⟩, fs, n, 0)
    | none =>
      match env.fileResp with
      | .error m =>
        (⟨false, none, 0, pstr "下载过程中发生错误: " ++ m⟩, fs, n, 1)
      | .ok content =>
        (⟨true, some path, (content.length : Int), []⟩,
         (path, content.length) :: fs, n, 1 + tagNetworkCalls info)

/-- Embeds `MusicDownloader._clean_lrc_lyrics`'s per-line keep condition
(music_downloader.py lines 566-575): drop blank lines, and drop lines that
start with `[`, contain `:` and do not start with `[0`. -/
def keepLine (line : PyStr) : Bool :=
  !(pyStrip line).isEmpty &&
  !(pfx ['['] line && line.contains ':' && !pfx ['[', '0'] line)

/-- Embeds `MusicDownloader._clean_lrc_lyrics` (music_downloader.py lines
558-579). -/
def clean_lrc_lyrics (lrc : PyStr) : PyStr :=
  if lrc = [] then []
  else joinLines ((splitLines lrc).filter keepLine)

/-- Embeds the lyric-combination block shared by `_write_mp3_tags`,
`_write_flac_tags` and `_write_m4a_tags` (music_downloader.py lines 390-399):
cleaned original, then — if a translation is present — either the separator
heading plus cleaned translation, or the cleaned translation alone when the
cleaned original is empty. -/
def combined_lyrics (lyric tlyric : PyStr) : PyStr :=
  let c1 := if lyric.isEmpty then [] else clean_lrc_lyrics lyric
  if tlyric.isEmpty then c1
  else if c1.isEmpty then clean_lrc_lyrics tlyric
  else c1 ++ pstr "\n\n[翻译歌词]\n" ++ clean_lrc_lyrics tlyric

/-! ### `NeteaseAPI.get_playlist_detail` (music_api.py lines 316-379) -/

/-- Minimal per-track metadata used to build well-formed detail envelopes. -/
structure SongMeta where
  name : PyStr
  artistList : List PyStr
  album : PyStr
  picUrl : PyStr

/-- A reassembled playlist track entry. -/
structure Track where
  id : Int
  name : PyStr
  artists : PyStr
  album : PyStr
  picUrl : PyStr

/-- One track from a decoded batch-detail `songs` entry: `song['id']`,
`song['name']`, the joined `ar` names, `song['al']['name']` and
`song['al']['picUrl']`; `none` embeds the `KeyError` on malformed entries. -/
def trackOfJ (song : JVal) : Option Track :=
  match jget song (pstr "id"), jget song (pstr "name"), jget song (pstr "ar"),
        jget song (pstr "al") with
  | some (.jint i), some (.jstr nm), some (.jarr ar), some al =>
    match artistNames ar, jget al (pstr "name"), jget al (pstr "picUrl") with
    | some names, some (.jstr alName), some (.jstr pic) =>
      some ⟨i, nm, joinSlash names, alName, pic⟩
    | _, _, _ => none
  | _, _, _, _ => none

/-- Track list of one batch-detail response: transport and JSON failures map
to the enclosing handlers' `APIException`s, and a `KeyError` while reading a
song entry to the `(json.JSONDecodeError, KeyError)` handler's message. -/
def processBatch (resp : RespOutcome) : Except PyExc (List Track) :=
  match resp with
  | .transportFail m => .error (.apiException (pstr "获取歌单详情请求失败: " ++ m))
  | .badJson m => .error (.apiException (pstr "解析歌单详情响应失败: " ++ m))
  | .ok v =>
    match v with
    | .jobj _ =>
      match (jget v (pstr "songs")).getD (.jarr []) with
      | .jarr songs =>
        match songs.mapM trackOfJ with
        | some tracks => .ok tracks
        | none => .error (.apiException (pstr "解析歌单详情响应失败: KeyError"))
      | _ => .error (.pyError (pstr "TypeError"))
    | _ => .error (.pyError (pstr "AttributeError"))

/-- The batching loop `for i in range(0, len(track_ids), 100)` (music_api.py
lines 357-373): issues one detail call per 100-id slice, appending the decoded
tracks in response order; also returns the list of issued batches.  The fuel
is called with `ids.length`, which bounds the iteration count. -/
def fetchBatches (det : List Int → RespOutcome) :
    Nat → List Int → Except PyExc (List Track) × List (List Int)
  | _, [] => (.ok [], [])
  | 0, _ => (.ok [], [])
  | fuel + 1, i :: rest =>
    let b := (i :: rest).take 100
    match processBatch (det b) with
    | .error e => (.error e, [b])
    | .ok tracks =>
      match fetchBatches det fuel ((i :: rest).drop 100) with
      | (.error e, log) => (.error e, b :: log)
      | (.ok more, log) => (.ok (tracks ++ more), b :: log)

/-- Oracle bundle for one playlist fetch: the playlist-detail response and the
per-batch song-detail responses, keyed by the requested id batch. -/
structure PlaylistEnv where
  playlistResp : RespOutcome
  detailResp : List Int → RespOutcome

/-- The reassembled playlist info (music_api.py lines 345-353); header fields
that the source copies raw are kept as raw optional values. -/
structure PlaylistInfo where
  id : Option JVal
  name : Option JVal
  coverImgUrl : Option JVal
  creator : PyStr
  trackCount : Option JVal
  description : PyStr
  tracks : List Track

/-- The ordered id list `[str(t['id']) for t in playlist.get('trackIds', [])]`
 (re-parsed to `int` in the batch loop); a malformed entry embeds the
`KeyError` caught by the `(json.JSONDecodeError, KeyError)` handler. -/
def trackIdsOf (playlist : JVal) : Except PyExc (List Int) :=
  match (jget playlist (pstr "trackIds")).getD (.jarr []) with
  | .jarr ts =>
    match ts.mapM (fun t =>
      match jget t (pstr "id") with
      | some (.jint n) => some n
      | _ => none) with
    | some ids => .ok ids
    | none => .error (.apiException (pstr "解析歌单详情响应失败: KeyError"))
  | _ => .error (.pyError (pstr "TypeError"))

/-- Embeds `NeteaseAPI.get_playlist_detail` (music_api.py lines 316-379),
returning the result together with the id batches issued to the song-detail
endpoint. -/
def get_playlist_detail (env : PlaylistEnv) (_pid : Int) :
    Except PyExc PlaylistInfo × List (List Int) :=
  match env.playlistResp with
  | .transportFail m => (.error (.apiException (pstr "获取歌单详情请求失败: " ++ m)), [])
  | .badJson m => (.error (.apiException (pstr "解析歌单详情响应失败: " ++ m)), [])
  | .ok v =>
    match v with
    | .jobj _ =>
      if envelopeCode v = some 200 then
        let playlist := jObjOrEmpty (jget v (pstr "playlist"))
        match trackIdsOf playlist with
        | .error e => (.error e, [])
        | .ok ids =>
          match fetchBatches env.detailResp ids.length ids with
          | (.error e, log) => (.error e, log)
          | (.ok tracks, log) =>
            (.ok ⟨jget playlist (pstr "id"), jget playlist (pstr "name"),
                  jget playlist (pstr "coverImgUrl"),
                  jStrOr (jget (jObjOrEmpty (jget playlist (pstr "creator"))) (pstr "nickname")) [],
                  jget playlist (pstr "trackCount"),
                  jStrOr (jget playlist (pstr "description")) [],
                  tracks⟩, log)
      else (.error (.apiException (pstr "获取歌单详情失败: " ++ getMessage v)), [])
    | _ => (.error (.pyError (pstr "AttributeError")), [])

/-- A decoded artist entry `{'name': nm}`, for building detail envelopes. -/
def mkArtistJ (nm : PyStr) : JVal := .jobj [(pstr "name", .jstr nm)]

/-- A well-formed decoded song entry for id `i` with metadata `m`. -/
def mkSongJ (i : Int) (m : SongMeta) : JVal :=
  .jobj [(pstr "id", .jint i), (pstr "name", .jstr m.name),
         (pstr "ar", .jarr (m.artistList.map mkArtistJ)),
         (pstr "al", .jobj [(pstr "name", .jstr m.album), (pstr "picUrl", .jstr m.picUrl)])]

/-- A batch-detail envelope `{'songs': [..]}`. -/
def songsEnvelope (songs : List JVal) : JVal := .jobj [(pstr "songs", .jarr songs)]

/-- The track the source reassembles from `mkSongJ i m`. -/
def mkTrack (i : Int) (m : SongMeta) : Track :=
  ⟨i, m.name, joinSlash m.artistList, m.album, m.picUrl⟩

/-! ### `QRLoginManager.check_qr_login` (music_api.py lines 542-579) -/

/-- One queued network interaction for the QR status endpoint: either the
transport raises, or a response arrives with a JSON-parse outcome and a
`Set-Cookie` header value. -/
inductive NetItem
  | tfail (msg : PyStr)
  | resp (parse : Except PyStr JVal) (setCookie : PyStr)

/-- Embeds `cookie_str.split('MUSIC_U=')[1].split(';')[0]` for a piece that
contains `MUSIC_U=`: the text between the first occurrence and the following
occurrence (if any), cut at the first `;`. -/
def musicUVal (piece : PyStr) : PyStr :=
  match breakOnSub (pstr "MUSIC_U=") piece with
  | some (_, post) =>
    upToChar ';'
      (match breakOnSub (pstr "MUSIC_U=") post with
       | some (pre2, _) => pre2
       | none => post)
  | none => []

/-- Python dict assignment `d[k] = v` on an insertion-ordered pair list. -/
def dictInsert (d : List (PyStr × PyStr)) (k v : PyStr) : List (PyStr × PyStr) :=
  if (d.map Prod.fst).contains k then
    d.map (fun kv => if kv.1 = k then (k, v) else kv)
  else d ++ [(k, v)]

/-- Embeds the cookie-extraction loop of `check_qr_login` (music_api.py lines
572-575): split the `Set-Cookie` header on `', '` and record `MUSIC_U` from
every piece containing `MUSIC_U=` (the last match wins). -/
def extractMusicU (header : PyStr) : List (PyStr × PyStr) :=
  (pySplit header (pstr ", ")).foldl
    (fun d piece =>
      if containsSub (pstr "MUSIC_U=") piece then dictInsert d (pstr "MUSIC_U") (musicUVal piece)
      else d) []

/-- Embeds `QRLoginManager.check_qr_login` (music_api.py lines 542-579): one
signed status call (the head of the queued network interactions), returning
the protocol code with the cookie dict, the remaining queue, the number of
calls issued, and the signed `params` string that was posted. -/
def check_qr_login (unikey requestId : PyStr) (net : List NetItem) :
    Except PyExc (Int × List (PyStr × PyStr)) × List NetItem × Nat × PyStr :=
  let params := encrypt_params QR_LOGIN_API (qr_login_payload unikey requestId)
  match net with
  | [] => (.error (.apiException (pstr "HTTP请求失败: 无响应")), [], 1, params)
  | item :: rest =>
    let res : Except PyExc (Int × List (PyStr × PyStr)) :=
      match item with
      | .tfail m => .error (.apiException (pstr "HTTP请求失败: " ++ m))
      | .resp parse sc =>
        match parse with
        | .error m => .error (.apiException (pstr "解析登录状态响应失败: " ++ m))
        | .ok v =>
          match v with
          | .jobj _ =>
            let d := if envelopeCode v = some 803 then extractMusicU sc else []
            .ok ((envelopeCode v).getD (-1), d)
          | _ => .error (.pyError (pstr "AttributeError"))
    (res, rest, 1, params)

/-! ### `MusicAPIService._extract_music_id` (main.py lines 203-223) -/

/-- The id extraction applied after any short-link resolution: a
`music.163.com` URL containing `id=` yields the text after the first `id=` up
to the next `&`; everything else is returned whitespace-stripped. -/
def extractCore (s : PyStr) : PyStr :=
  if containsSub (pstr "music.163.com") s then
    match afterFirst (pstr "id=") s with
    | some t => upToChar '&' t
    | none => pyStrip s
  else pyStrip s

/-- Embeds `MusicAPIService._extract_music_id` (main.py lines 203-223).  The
`redirect` oracle is the single no-follow GET issued for `163cn.tv` inputs:
`.error` embeds a raised request exception (handled by the catch-all, which
returns the original input stripped), `.ok none` a response without a
`Location` header, and `.ok (some loc)` the redirect target. -/
def extract_music_id (redirect : Except PyStr (Option PyStr)) (s : PyStr) : PyStr :=
  if containsSub (pstr "163cn.tv") s then
    match redirect with
    | .error _ => pyStrip s
    | .ok loc => extractCore (loc.getD s)
  else extractCore s

/-! ### Concrete inputs used by the witnesses and counterexamples -/

/-- A sample payload for the stream-URL endpoint. -/
def c1Payload : Payload :=
  [(pstr "ids", .vlist [123]), (pstr "level", .vs (pstr "standard")),
   (pstr "encodeType", .vs (pstr "flac")), (pstr "header", .vs (pstr "{}"))]

/-- A successful song-detail envelope for one track. -/
def sampleDetailResp : JVal :=
  .jobj [(pstr "code", .jint 200),
         (pstr "songs", .jarr
           [.jobj [(pstr "name", .jstr (pstr "Song")),
                   (pstr "ar", .jarr [.jobj [(pstr "name", .jstr (pstr "Artist"))]]),
                   (pstr "al", .jobj [(pstr "name", .jstr (pstr "Album")),
                                      (pstr "picUrl", .jstr [])]),
                   (pstr "dt", .jint 180000),
                   (pstr "no", .jint 1)]])]

/-- A successful lyric envelope with empty lyric texts. -/
def sampleLyricResp : JVal :=
  .jobj [(pstr "code", .jint 200),
         (pstr "lrc", .jobj [(pstr "lyric", .jstr [])]),
         (pstr "tlyric", .jobj [(pstr "lyric", .jstr [])])]

/-- A successful stream-URL envelope with a usable URL. -/
def c2UrlResp : JVal :=
  .jobj [(pstr "code", .jint 200),
         (pstr "data", .jarr
           [.jobj [(pstr "url", .jstr (pstr "http://x/a.mp3")),
                   (pstr "type", .jstr (pstr "mp3")),
                   (pstr "size", .jint 999)]])]

/-- Oracle bundle where every call succeeds and the stream is five bytes. -/
def c2Env : Env :=
  ⟨.ok c2UrlResp, .ok sampleDetailResp, .ok sampleLyricResp, .ok [1, 2, 3, 4, 5], .ok []⟩

/-- A code-200 stream-URL envelope whose track entry carries a null URL. -/
def c4UrlResp : JVal :=
  .jobj [(pstr "code", .jint 200),
         (pstr "data", .jarr
           [.jobj [(pstr "url", .jnull), (pstr "type", .jnull), (pstr "size", .jint 0)]])]

/-- Oracle bundle for the null-URL scenario. -/
def c4Env : Env :=
  ⟨.ok c4UrlResp, .ok sampleDetailResp, .ok sampleLyricResp, .ok [1, 2, 3], .ok []⟩

/-- A 201-character input whose sanitized form is truncated at the cap. -/
def c8input : PyStr := List.replicate 199 'a' ++ [' ', 'b']

/-- A confirmed (803) QR status body. -/
def c9RespBody : JVal := .jobj [(pstr "code", .jint 803)]

/-- One queued QR status response carrying a `MUSIC_U` cookie. -/
def c9Net : List NetItem :=
  [.resp (.ok c9RespBody) (pstr "x=1, MUSIC_U=tok123; Max-Age=100, y=2")]

/-- Per-track metadata for the playlist witness. -/
def c6Meta : Int → SongMeta :=
  fun i => ⟨pstr "n" ++ intStr i, [pstr "a"], pstr "al", pstr "p"⟩

/-- A batch-detail oracle returning the requested tracks in request order. -/
def c6Det : List Int → RespOutcome :=
  fun b => .ok (songsEnvelope (b.map (fun i => mkSongJ i (c6Meta i))))

/-- A playlist envelope with two track ids. -/
def c6PlaylistBody : JVal :=
  .jobj [(pstr "code", .jint 200),
         (pstr "playlist", .jobj
           [(pstr "trackIds", .jarr [.jobj [(pstr "id", .jint 7)],
                                     .jobj [(pstr "id", .jint 8)]])])]

/-- Oracle bundle for the playlist witness. -/
def c6Env : PlaylistEnv := ⟨.ok c6PlaylistBody, c6Det⟩

/-- The music info resolved from `c2Env` (checked by the C2 witness). -/
def c2Info : MusicInfo :=
  ⟨1, pstr "Song", pstr "Artist", pstr "Album", [], 180, 1,
   pstr "http://x/a.mp3", pstr "mp3", 999, pstr "standard", [], []⟩

/-- A filesystem already holding the five-byte destination file. -/
def c2FS : FS := [(mkFilePath (pstr "downloads") c2Info, 5)]

/-! ## Theorems -/

/-- Boolean `pfx` decides list prefixing. -/
theorem pfx_iff : ∀ a b : PyStr, pfx a b = true ↔ a <+: b
  | [], b => by simp [pfx]
  | a :: s, [] => by simp [pfx]
  | a :: s, b :: t => by
    simp [pfx, List.cons_prefix_cons, pfx_iff s t, Bool.and_eq_true, decide_eq_true_iff]

/-- A list is a `pfx` of itself. -/
theorem pfx_refl (a : PyStr) : pfx a a = true := (pfx_iff a a).2 (List.prefix_refl a)

/-- Prefix testing only inspects the first `sep.length` elements. -/
theorem pfx_append_of_le : ∀ (sep l l2 : PyStr), sep.length ≤ l.length →
    pfx sep (l ++ l2) = pfx sep l
  | [], _, _, _ => by simp [pfx]
  | a :: s, [], l2, h => by simp at h
  | a :: s, b :: l, l2, h => by
    simp only [List.cons_append, pfx, List.append_eq]
    rw [pfx_append_of_le s l l2 (by simpa using h)]

/-- If `sep` does not occur in a list, `afterFirst` finds nothing. -/
theorem afterFirst_eq_none : ∀ (sep s : PyStr), containsSub sep s = false →
    afterFirst sep s = none
  | sep, [], h => rfl
  | sep, c :: rest, h => by
    simp only [containsSub, Bool.or_eq_false_iff] at h
    simp only [afterFirst, h.1, Bool.false_eq_true, if_false]
    exact afterFirst_eq_none sep rest h.2

/-- Computing `afterFirst` on a string that starts with the separator. -/
theorem afterFirst_of_pfx : ∀ (sep s : PyStr), sep ≠ [] → pfx sep s = true →
    afterFirst sep s = some (List.drop sep.length s)
  | [], _, hne, _ => absurd rfl hne
  | a :: s2, [], _, hp => by simp [pfx] at hp
  | a :: s2, c :: r, _, hp => by
    simp only [afterFirst, hp, if_true]

/-- Unfolding equation of `afterFirst` on a cons cell. -/
theorem afterFirst_cons (sep : PyStr) (c : Char) (r : PyStr) :
    afterFirst sep (c :: r) =
      if pfx sep (c :: r) then some (List.drop sep.length (c :: r))
      else afterFirst sep r := rfl

/-- Computing `afterFirst` at the first occurrence, for a separator written as
`d ++ [x]`: if the separator starts nowhere inside `pre ++ d`, the text after
its first occurrence in `pre ++ ((d ++ [x]) ++ rest)` is exactly `rest`. -/
theorem afterFirst_concat (d : PyStr) (x : Char) :
    ∀ pre rest : PyStr, containsSub (d ++ [x]) (pre ++ d) = false →
    afterFirst (d ++ [x]) (pre ++ ((d ++ [x]) ++ rest)) = some rest
  | [], rest, _ => by
    have hne : d ++ [x] ≠ [] := by simp
    have hp : pfx (d ++ [x]) ((d ++ [x]) ++ rest) = true := by
      rw [pfx_append_of_le _ _ _ le_rfl]; exact pfx_refl _
    rw [List.nil_append, afterFirst_of_pfx _ _ hne hp, List.drop_left]
  | c :: pre2, rest, h => by
    simp only [List.cons_append, containsSub, Bool.or_eq_false_iff] at h
    have hlen : (d ++ [x]).length ≤ (c :: (pre2 ++ d)).length := by
      simp [List.length_append, List.length_cons]
    have hrearr : c :: (pre2 ++ ((d ++ [x]) ++ rest)) =
        (c :: (pre2 ++ d)) ++ (x :: rest) := by
      simp [List.append_assoc]
    have hno : pfx (d ++ [x]) (c :: (pre2 ++ ((d ++ [x]) ++ rest))) = false := by
      rw [hrearr, pfx_append_of_le _ _ _ hlen]
      simpa using h.1
    have hno' : ¬ pfx (d ++ [x]) (c :: (pre2 ++ ((d ++ [x]) ++ rest))) = true := by
      rw [hno]; simp
    rw [List.cons_append, afterFirst_cons, if_neg hno']
    exact afterFirst_concat d x pre2 rest (by simpa using h.2)

/-- The head of `dropWhile` fails the predicate. -/
theorem dropWhile_head_false {p : Char → Bool} :
    ∀ {l : PyStr} {c : Char} {t : PyStr}, List.dropWhile p l = c :: t → p c = false := by
  intro l
  induction l with
  | nil => intro c t h; simp [List.dropWhile] at h
  | cons a l2 ih =>
    intro c t h
    rw [List.dropWhile_cons] at h
    split at h
    · exact ih h
    · cases h
      next hp => simpa using hp

/-- Function `pyStripChars` agrees with `dropWhile` followed by `rdropWhile`. -/
theorem pyStripChars_eq (cs : List Char) (s : PyStr) :
    pyStripChars cs s = (s.dropWhile (stripSet cs)).rdropWhile (stripSet cs) := rfl

/-- C5: the lyric cleaner evaluated on concrete inputs.  An input of only
bracketed metadata and blank lines cleans to the empty string, and the
separator composition holds on ordinary lyrics — but the timestamped lyric
line `[10:00.00]hello` (a song past the ten-minute mark) is deleted because
the keep-condition `line.startswith('[0')` misclassifies every timestamp
whose minute field does not start with `0`, contradicting the claim that
every timestamped lyric line is preserved. -/
theorem c5_clean_timestamp_bug :
    clean_lrc_lyrics (pstr "[10:00.00]hello") = [] ∧
    clean_lrc_lyrics (pstr "[ar:x]\n \n[ti:y]") = [] ∧
    clean_lrc_lyrics (pstr "[ar:x]\n\n[00:01.00]hi") = pstr "[00:01.00]hi" ∧
    combined_lyrics (pstr "[00:01.00]aa") (pstr "[00:02.00]bb") =
      pstr "[00:01.00]aa" ++ pstr "\n\n[翻译歌词]\n" ++ pstr "[00:02.00]bb" := by
  refine ⟨by decide, by decide, by decide, by decide⟩

/-- C7: the stream-URL payload agrees with the spec's field list — base
fields `ids`, `level`, `encodeType`, `header`, with `immerseType = "c51"`
present exactly when the requested quality is `sky`. -/
theorem c7_payload_fields (sid : Int) (q requestId : PyStr) :
    song_url_payload sid q requestId = song_url_payload_spec sid q requestId ∧
    plookup (song_url_payload sid q requestId) (pstr "immerseType") =
      (if q = pstr "sky" then some (.vs (pstr "c51")) else none) ∧
    (song_url_payload sid q requestId).map Prod.fst =
      [pstr "ids", pstr "level", pstr "encodeType", pstr "header"] ++
        (if q = pstr "sky" then [pstr "immerseType"] else []) := by
  by_cases h : q = pstr "sky"
  · subst h
    refine ⟨by simp [song_url_payload, song_url_payload_spec], ?_,
      by simp +decide [song_url_payload]⟩
    simp +decide [song_url_payload, plookup]
  · refine ⟨by simp [song_url_payload, song_url_payload_spec, h], ?_,
      by simp +decide [song_url_payload, h]⟩
    simp +decide [song_url_payload, plookup, h]

/-- Characterization of `sanitize_filename`'s result: the placeholder, a
truncated strip, or the strip itself. -/
theorem sanitize_cases (f : PyStr) :
    sanitize_filename f = pstr "unknown" ∨
    (sanitize_filename f = (pyStripChars [' ', '.'] (f.map sanitizeSub)).take 200 ∧
      200 < (pyStripChars [' ', '.'] (f.map sanitizeSub)).length) ∨
    (sanitize_filename f = pyStripChars [' ', '.'] (f.map sanitizeSub) ∧
      pyStripChars [' ', '.'] (f.map sanitizeSub) ≠ [] ∧
      (pyStripChars [' ', '.'] (f.map sanitizeSub)).length ≤ 200) := by
  simp only [sanitize_filename]
  by_cases hlen : 200 < (pyStripChars [' ', '.'] (f.map sanitizeSub)).length
  · rw [if_pos hlen]
    have hne : (pyStripChars [' ', '.'] (f.map sanitizeSub)).take 200 ≠ [] := by
      intro h
      have := congrArg List.length h
      rw [List.length_take] at this
      simp only [List.length_nil] at this
      omega
    rw [if_neg hne]
    exact Or.inr (Or.inl ⟨rfl, hlen⟩)
  · rw [if_neg hlen]
    by_cases hnil : pyStripChars [' ', '.'] (f.map sanitizeSub) = []
    · rw [if_pos hnil]
      exact Or.inl rfl
    · rw [if_neg hnil]
      exact Or.inr (Or.inr ⟨rfl, hnil, by omega⟩)

/-- A non-empty `take` pins down the head of the list. -/
theorem take_eq_cons_head {l : PyStr} {n : Nat} {c : Char} {t : PyStr}
    (h : l.take n = c :: t) : ∃ t2, l = c :: t2 := by
  cases l with
  | nil => simp at h
  | cons a u =>
    cases n with
    | zero => simp at h
    | succ m =>
      rw [List.take_succ_cons] at h
      injection h with h1 _
      exact ⟨u, by rw [h1]⟩

/-- Every character surviving the substitution step is legal. -/
theorem sanitizeSub_mem_legal (f : PyStr) :
    ∀ c ∈ f.map sanitizeSub, ILLEGAL_CHARS.contains c = false := by
  intro c hc
  obtain ⟨a, _, rfl⟩ := List.mem_map.1 hc
  unfold sanitizeSub
  split
  · decide
  · next hcontains => simpa using hcontains

/-- Characters of the stripped string come from the substituted string. -/
theorem pyStripChars_mem {cs : List Char} {s : PyStr} :
    ∀ c ∈ pyStripChars cs s, c ∈ s := by
  intro c hc
  rw [pyStripChars_eq] at hc
  have h1 : List.Sublist (pyStripChars cs s) s := by
    rw [pyStripChars_eq]
    exact ((List.rdropWhile_prefix _ _).sublist).trans (List.dropWhile_sublist _)
  exact h1.mem (by rwa [pyStripChars_eq])

/-- The head of the stripped string is outside the strip set. -/
theorem pyStripChars_head {cs : List Char} {s : PyStr} {c : Char} {t : PyStr}
    (h : pyStripChars cs s = c :: t) : stripSet cs c = false := by
  rw [pyStripChars_eq] at h
  have hpre := List.rdropWhile_prefix (stripSet cs) (s.dropWhile (stripSet cs))
  rw [h] at hpre
  obtain ⟨u, hu⟩ := hpre
  rw [List.cons_append] at hu
  exact dropWhile_head_false hu.symm

/-- The last character of the stripped string is outside the strip set. -/
theorem pyStripChars_last {cs : List Char} {s : PyStr} {c : Char}
    (h : (pyStripChars cs s).getLast? = some c) : stripSet cs c = false := by
  have hr : (pyStripChars cs s).reverse =
      (s.dropWhile (stripSet cs)).reverse.dropWhile (stripSet cs) := by
    simp [pyStripChars]
  have hh : ((s.dropWhile (stripSet cs)).reverse.dropWhile (stripSet cs)).head? = some c := by
    rw [← hr, List.head?_reverse, h]
  cases hd : (s.dropWhile (stripSet cs)).reverse.dropWhile (stripSet cs) with
  | nil => rw [hd] at hh; simp at hh
  | cons a t =>
    rw [hd] at hh
    simp only [List.head?_cons, Option.some.injEq] at hh
    rw [← hh]
    exact dropWhile_head_false hd

set_option maxRecDepth 8192 in
/-- C8 (counterexample): the 201-character input `c8input` is sanitized to a
name that still ends in a space — the strip of trailing spaces and dots
happens before the 200-character cap, so truncation can re-expose a trailing
space, contradicting the claim that the result has trailing spaces and dots
removed. -/
theorem c8_counterexample :
    200 < c8input.length ∧
    (sanitize_filename c8input).getLast? = some ' ' := by
  refine ⟨by decide, by decide⟩

/-- C8 (amended): sanitization always returns a non-empty name of at most 200
characters containing none of the illegal characters `<>:"/\|?*`, with no
leading space or dot; trailing spaces and dots are removed before the length
cap, so the absence of a trailing space or dot is guaranteed (only) when no
truncation occurs, i.e. when the stripped string is within the cap. -/
theorem c8_amended (f : PyStr) :
    sanitize_filename f ≠ [] ∧
    (∀ c ∈ sanitize_filename f, ILLEGAL_CHARS.contains c = false) ∧
    (sanitize_filename f).length ≤ 200 ∧
    (∀ c t, sanitize_filename f = c :: t → stripSet [' ', '.'] c = false) ∧
    ((pyStripChars [' ', '.'] (f.map sanitizeSub)).length ≤ 200 →
      ∀ c, (sanitize_filename f).getLast? = some c → stripSet [' ', '.'] c = false) := by
  rcases sanitize_cases f with h | ⟨h, hlen⟩ | ⟨h, hne, hlen⟩
  · rw [h]
    refine ⟨by decide, by decide, by decide, ?_, ?_⟩
    · intro c t he
      injection he with h1 _
      rw [← h1]; decide
    · intro _ c he
      have : c = 'n' := by
        have h2 : (pstr "unknown").getLast? = some 'n' := by decide
        rw [h2] at he; injection he with he; exact he.symm
      rw [this]; decide
  · rw [h]
    refine ⟨?_, ?_, ?_, ?_, ?_⟩
    · intro he
      have := congrArg List.length he
      rw [List.length_take] at this
      simp only [List.length_nil] at this
      omega
    · intro c hc
      exact sanitizeSub_mem_legal f c (pyStripChars_mem c (List.mem_of_mem_take hc))
    · rw [List.length_take]; omega
    · intro c t he
      obtain ⟨t2, ht2⟩ := take_eq_cons_head he
      exact pyStripChars_head ht2
    · intro h200
      omega
  · rw [h]
    refine ⟨hne, ?_, hlen, ?_, ?_⟩
    · intro c hc
      exact sanitizeSub_mem_legal f c (pyStripChars_mem c hc)
    · intro c t he
      exact pyStripChars_head he
    · intro _ c he
      exact pyStripChars_last he

/-- C8 witness: the amended theorem applied at the concrete input `" a<b. "`,
whose sanitized form is `"a_b"`. -/
theorem c8_amended_witness :
    sanitize_filename (pstr " a<b. ") = pstr "a_b" ∧
    ILLEGAL_CHARS.contains '_' = false ∧
    stripSet [' ', '.'] 'a' = false ∧
    stripSet [' ', '.'] 'b' = false := by
  refine ⟨by decide, ?_, ?_, ?_⟩
  · exact (c8_amended (pstr " a<b. ")).2.1 '_' (by decide)
  · exact (c8_amended (pstr " a<b. ")).2.2.2.1 'a' (pstr "_b") (by decide)
  · exact (c8_amended (pstr " a<b. ")).2.2.2.2 (by decide) 'b' (by decide)

/-- C10: track-id extraction is total — the embedding returns a plain string
for every input (the source wraps the whole body in a catch-all handler, so no
exception escapes) — and behaves as claimed: a non-short-link input containing
`music.163.com` and `id=` yields the text after the first `id=` up to the next
`&`; a non-short-link input without both markers yields the input stripped of
surrounding whitespace; a `163cn.tv` input is first resolved through at most
one redirect hop (`.ok (some loc)`), falling back to the stripped input when
the redirect request fails, and to the original input when no `Location`
header is present. -/
theorem c10_extract_total (redirect : Except PyStr (Option PyStr)) (s : PyStr) :
    (containsSub (pstr "163cn.tv") s = false →
      ∀ pre rest : PyStr, s = pre ++ (pstr "id=" ++ rest) →
      containsSub (pstr "music.163.com") s = true →
      containsSub (pstr "id=") (pre ++ pstr "id") = false →
      extract_music_id redirect s = upToChar '&' rest) ∧
    (containsSub (pstr "163cn.tv") s = false →
      containsSub (pstr "music.163.com") s = false ∨ containsSub (pstr "id=") s = false →
      extract_music_id redirect s = pyStrip s) ∧
    (∀ m, containsSub (pstr "163cn.tv") s = true → redirect = .error m →
      extract_music_id redirect s = pyStrip s) ∧
    (∀ loc, containsSub (pstr "163cn.tv") s = true → redirect = .ok (some loc) →
      extract_music_id redirect s = extractCore loc) ∧
    (containsSub (pstr "163cn.tv") s = true → redirect = .ok none →
      extract_music_id redirect s = extractCore s) := by
  refine ⟨?_, ?_, ?_, ?_, ?_⟩
  · intro h163 pre rest hs hmusic hno
    subst hs
    have hdec : pstr "id=" = pstr "id" ++ ['='] := by decide
    have haf : afterFirst (pstr "id=") (pre ++ (pstr "id=" ++ rest)) = some rest := by
      rw [hdec]
      exact afterFirst_concat (pstr "id") '=' pre rest (by rw [← hdec]; exact hno)
    simp only [extract_music_id, h163, Bool.false_eq_true, if_false, extractCore,
      hmusic, if_true, haf]
  · intro h163 hother
    simp only [extract_music_id, h163, Bool.false_eq_true, if_false, extractCore]
    rcases hother with hm | hid
    · rw [hm]; simp
    · rw [afterFirst_eq_none _ _ hid]
      split <;> rfl
  · intro m h163 hr
    subst hr
    simp [extract_music_id, h163]
  · intro loc h163 hr
    subst hr
    simp [extract_music_id, h163, Option.getD]
  · intro h163 hr
    subst hr
    simp [extract_music_id, h163, Option.getD]

/-- C10 witness: the extraction theorem applied at concrete inputs. -/
theorem c10_extract_total_witness :
    extract_music_id (.ok none) (pstr "https://music.163.com/song?id=123&uct=x") = pstr "123" ∧
    extract_music_id (.ok none) (pstr " 456 ") = pstr "456" ∧
    extract_music_id (.error (pstr "timeout")) (pstr "http://163cn.tv/abc") =
      pstr "http://163cn.tv/abc" := by
  refine ⟨?_, ?_, ?_⟩
  · have h := (c10_extract_total (.ok none) (pstr "https://music.163.com/song?id=123&uct=x")).1
      (by decide) (pstr "https://music.163.com/song?") (pstr "123&uct=x")
      (by decide) (by decide) (by decide)
    rw [h]; decide
  · have h := (c10_extract_total (.ok none) (pstr " 456 ")).2.1 (by decide) (Or.inl (by decide))
    rw [h]; decide
  · have h := (c10_extract_total (.error (pstr "timeout")) (pstr "http://163cn.tv/abc")).2.2.1
      (pstr "timeout") (by decide) rfl
    rw [h]; decide

/-- Unfolding equation of `replaceF` on a cons cell with fuel. -/
theorem replaceF_cons (sep rep : PyStr) (fuel : Nat) (c : Char) (rest : PyStr) :
    replaceF sep rep (fuel + 1) (c :: rest) =
      if pfx sep (c :: rest) then rep ++ replaceF sep rep fuel (List.drop sep.length (c :: rest))
      else c :: replaceF sep rep fuel rest := rfl

/-- Replacement is the identity when the separator does not occur. -/
theorem replaceF_no_occur (sep rep : PyStr) :
    ∀ (fuel : Nat) (l : PyStr), containsSub sep l = false → replaceF sep rep fuel l = l
  | 0, [], _ => rfl
  | 0, _ :: _, _ => rfl
  | _ + 1, [], _ => rfl
  | fuel + 1, c :: rest, h => by
    simp only [containsSub, Bool.or_eq_false_iff] at h
    rw [replaceF_cons, if_neg (by simp [h.1])]
    rw [replaceF_no_occur sep rep fuel rest h.2]

/-- Replacing at a leading occurrence of the separator, when it occurs
nowhere else. -/
theorem replace_at_head (sep rep t : PyStr) (hne : sep ≠ [])
    (h2 : containsSub sep t = false) (fuel : Nat) :
    replaceF sep rep (fuel + 1) (sep ++ t) = rep ++ t := by
  obtain ⟨s0, s2, rfl⟩ : ∃ s0 s2, sep = s0 :: s2 := by
    cases sep with
    | nil => exact absurd rfl hne
    | cons s0 s2 => exact ⟨s0, s2, rfl⟩
  have hp : pfx (s0 :: s2) (s0 :: (s2 ++ t)) = true := by
    rw [← List.cons_append, pfx_append_of_le _ _ _ le_rfl]
    exact pfx_refl _
  rw [List.cons_append, replaceF_cons, if_pos hp]
  congr 1
  rw [← List.cons_append, List.drop_left]
  exact replaceF_no_occur _ _ _ _ h2

/-- Computing `str.replace` on a path whose only `/eapi/` occurrence is its prefix. -/
theorem replace_eapi (p : PyStr)
    (h1 : pfx (pstr "/eapi/") p = true)
    (h2 : containsSub (pstr "/eapi/") (List.drop 6 p) = false) :
    pyReplace p (pstr "/eapi/") (pstr "/api/") = pstr "/api/" ++ List.drop 6 p := by
  obtain ⟨t, rfl⟩ := (pfx_iff _ _).1 h1
  have h6 : (pstr "/eapi/").length = 6 := by decide
  have hdrop : List.drop 6 (pstr "/eapi/" ++ t) = t := by
    rw [← h6, List.drop_left]
  rw [hdrop] at h2
  rw [hdrop]
  unfold pyReplace
  have hlen : (pstr "/eapi/" ++ t).length = t.length + 5 + 1 := by
    rw [List.length_append, h6]; omega
  rw [hlen]
  exact replace_at_head _ _ _ (by decide) h2 _

/-- The source's hex digit agrees with the spec-side table digit. -/
theorem hexDigit_eq_spec : ∀ m < 16, hexDigitChar m = specHexDigit m := by decide

/-- The source's byte-to-hex rendering agrees with the spec-side one. -/
theorem hexByte_eq_spec : hexByte = specHexByte := by
  funext b
  unfold hexByte specHexByte
  have h1 : b >>> 4 = b / 16 := by
    have h := Nat.shiftRight_eq_div_pow b 4
    norm_num at h
    exact h
  have hp : (0 : Nat) < 16 := by omega
  have e1 := hexDigit_eq_spec (b / 16 % 16) (Nat.mod_lt (b / 16) hp)
  have e2 := hexDigit_eq_spec (b % 16) (Nat.mod_lt b hp)
  rw [h1, e1, e2]

/-- C1: on every endpoint URL whose path carries `/eapi/` exactly once, as its
prefix (true of all signed endpoints in the sources), `encrypt_params` equals
the spec's signing recipe — MD5 digest of
`"nobody" + path + "use" + json(payload) + "md5forencrypt"` in lowercase hex,
the `-36cd479b6b5-` composite, PKCS#7 padding, AES-ECB under the fixed key
`b"e82ckenh8dichen8"`, hex-encoded — and, being a pure function, it returns
the same hex string on every repeated call with the same inputs. -/
theorem c1_sign_refines (url : PyStr) (payload : Payload)
    (h1 : pfx (pstr "/eapi/") (urlPath url) = true)
    (h2 : containsSub (pstr "/eapi/") (List.drop 6 (urlPath url)) = false) :
    encrypt_params url payload = sign_spec url payload ∧
    encrypt_params url payload = encrypt_params url payload := by
  refine ⟨?_, rfl⟩
  simp only [encrypt_params, sign_spec, hash_hex_digest, hex_digest, pkcs7pad, AES_KEY]
  rw [replace_eapi _ h1 h2, if_pos h1, hexByte_eq_spec]

set_option maxRecDepth 8192 in
/-- C1 witness: the refinement theorem applied at the stream-URL endpoint with
a concrete payload. -/
theorem c1_sign_refines_witness :
    pfx (pstr "/eapi/") (urlPath SONG_URL_V1) = true ∧
    containsSub (pstr "/eapi/") (List.drop 6 (urlPath SONG_URL_V1)) = false ∧
    encrypt_params SONG_URL_V1 c1Payload = sign_spec SONG_URL_V1 c1Payload := by
  refine ⟨by decide, by decide,
    (c1_sign_refines SONG_URL_V1 c1Payload (by decide) (by decide)).1⟩

/-- C3 (counterexample): a transport failure and a protocol rejection both
surface as the same exception type `APIException` — the claim that the two
failure kinds are distinguishable by the type of the raised error alone is
false on the code, which defines a single `APIException` class for both. -/
theorem c3_counterexample :
    get_song_url (.transportFail (pstr "timed out")) =
      .error (.apiException (pstr "HTTP请求失败: timed out")) ∧
    get_song_url (.ok (JVal.jobj [(pstr "code", .jint 400),
        (pstr "message", .jstr (pstr "no"))])) =
      .error (.apiException (pstr "获取歌曲URL失败: no")) := by
  exact ⟨rfl, rfl⟩

/-- C3 (amended): transport failures and protocol rejections both raise
`APIException`; a caller can tell them apart only by the message prefix
(`"HTTP请求失败: "` from the transport layer versus the method-specific
rejection prefix), never by the exception type. -/
theorem c3_amended (m : PyStr) (v : JVal) :
    get_song_url (.transportFail m) =
      .error (.apiException (pstr "HTTP请求失败: " ++ m)) ∧
    (isDict v = true → envelopeCode v ≠ some 200 →
      get_song_url (.ok v) =
        .error (.apiException (pstr "获取歌曲URL失败: " ++ getMessage v))) := by
  refine ⟨rfl, ?_⟩
  intro hd hc
  cases v with
  | jobj fields => simp [get_song_url, hc]
  | jnull => simp [isDict] at hd
  | jbool b => simp [isDict] at hd
  | jint n => simp [isDict] at hd
  | jstr s => simp [isDict] at hd
  | jarr items => simp [isDict] at hd

/-- C3 witness: the amended theorem applied at a concrete transport failure
and a concrete protocol rejection. -/
theorem c3_amended_witness :
    get_song_url (.transportFail (pstr "conn reset")) =
      .error (.apiException (pstr "HTTP请求失败: conn reset")) ∧
    get_song_url (.ok (JVal.jobj [(pstr "code", .jint 502)])) =
      .error (.apiException (pstr "获取歌曲URL失败: 未知错误")) := by
  refine ⟨(c3_amended (pstr "conn reset") (JVal.jobj [(pstr "code", .jint 502)])).1, ?_⟩
  have h := (c3_amended (pstr "conn reset") (JVal.jobj [(pstr "code", .jint 502)])).2
    rfl (by decide)
  rw [h]
  rfl

/-- An envelope whose integer `code` field is read must be a dict. -/
theorem envelopeCode_isDict {v : JVal} {n : Int}
    (h : envelopeCode v = some n) : ∃ fields, v = .jobj fields := by
  cases v with
  | jobj fields => exact ⟨fields, rfl⟩
  | jnull => simp [envelopeCode, jget] at h
  | jbool b => simp [envelopeCode, jget] at h
  | jint k => simp [envelopeCode, jget] at h
  | jstr s => simp [envelopeCode, jget] at h
  | jarr items => simp [envelopeCode, jget] at h

/-- C4: when the stream-URL endpoint answers with code 200 but a null (or
missing, or empty) URL for the requested tier, `get_song_url` returns the
envelope normally — it does not raise — and the downloader's resolution step
`get_music_info` then fails with a `DownloadException` before any file
operation: `download_music_file` returns a failed result, leaves the
filesystem unchanged, and performs no transfer call. -/
theorem c4_null_url (env : Env) (dld : PyStr) (fs : FS) (mid : Int) (q : PyStr)
    (v d : JVal) (rest : List JVal)
    (h1 : env.urlResp = .ok v)
    (h2 : envelopeCode v = some 200)
    (h3 : jget v (pstr "data") = some (.jarr (d :: rest)))
    (h4 : jStrOr (jget d (pstr "url")) [] = []) :
    get_song_url env.urlResp = .ok v ∧
    (get_music_info env mid q).1 = .error (.downloadException
      (pstr "获取音乐信息时发生错误: " ++
        (pstr "音乐ID " ++ intStr mid ++ pstr " 无可用的下载链接"))) ∧
    (download_music_file env dld fs mid q).1.success = false ∧
    (download_music_file env dld fs mid q).2.1 = fs ∧
    (download_music_file env dld fs mid q).2.2.2 = 0 := by
  obtain ⟨fields, rfl⟩ := envelopeCode_isDict h2
  have g1 : get_song_url env.urlResp = .ok (JVal.jobj fields) := by
    rw [h1]
    simp [get_song_url, h2]
  have graw : get_music_info_raw env mid q =
      (.error (.downloadException (pstr "音乐ID " ++ intStr mid ++ pstr " 无可用的下载链接")), 1) := by
    unfold get_music_info_raw
    rw [g1]
    simp [h3, h4, jTruthy]
  have ginfo : get_music_info env mid q =
      (.error (.downloadException (pstr "获取音乐信息时发生错误: " ++
        (pstr "音乐ID " ++ intStr mid ++ pstr " 无可用的下载链接"))), 1) := by
    unfold get_music_info
    rw [graw]
    rfl
  refine ⟨g1, by rw [ginfo], ?_, ?_, ?_⟩ <;>
    · unfold download_music_file
      rw [ginfo]

/-- C4 witness: the null-URL theorem applied at the concrete oracle bundle
`c4Env`, track 123, standard tier, on an empty filesystem. -/
theorem c4_null_url_witness :
    get_song_url c4Env.urlResp = .ok c4UrlResp ∧
    (get_music_info c4Env 123 (pstr "standard")).1 = .error (.downloadException
      (pstr "获取音乐信息时发生错误: " ++
        (pstr "音乐ID " ++ intStr 123 ++ pstr " 无可用的下载链接"))) ∧
    (download_music_file c4Env (pstr "downloads") [] 123 (pstr "standard")).1.success = false ∧
    (download_music_file c4Env (pstr "downloads") [] 123 (pstr "standard")).2.1 = [] ∧
    (download_music_file c4Env (pstr "downloads") [] 123 (pstr "standard")).2.2.2 = 0 :=
  c4_null_url c4Env (pstr "downloads") [] 123 (pstr "standard") c4UrlResp
    (JVal.jobj [(pstr "url", .jnull), (pstr "type", .jnull), (pstr "size", .jint 0)]) []
    rfl (by decide) rfl rfl

/-- A successful resolution always performed exactly the three network calls
(stream URL, song detail, lyrics). -/
theorem get_music_info_raw_ok_calls (env : Env) (mid : Int) (q : PyStr)
    (info : MusicInfo) (n : Nat)
    (h : get_music_info_raw env mid q = (.ok info, n)) : n = 3 := by
  unfold get_music_info_raw at h
  simp only [] at h
  repeat' split at h
  all_goals simp_all

/-- The call count of `get_music_info`, on success, is three. -/
theorem get_music_info_ok_calls (env : Env) (mid : Int) (q : PyStr)
    (info : MusicInfo) (n : Nat)
    (h : get_music_info env mid q = (.ok info, n)) : n = 3 := by
  unfold get_music_info at h
  split at h
  · simp at h
  · next i n2 heq =>
      have h3 := get_music_info_raw_ok_calls env mid q i n2 heq
      have hn : n2 = n := congrArg Prod.snd h
      omega

set_option maxRecDepth 8192 in
/-- C2 (counterexample): with the destination file already on disk, a second
`download_music_file` call still succeeds with the on-disk size and the same
path, but performs three resolution network calls (stream URL, detail,
lyrics) before the existence check — not zero network calls as claimed; only
the file transfer itself is skipped. -/
theorem c2_counterexample :
    (download_music_file c2Env (pstr "downloads") [] 1 (pstr "standard")).1.success = true ∧
    (download_music_file c2Env (pstr "downloads")
        (download_music_file c2Env (pstr "downloads") [] 1 (pstr "standard")).2.1
        1 (pstr "standard")).1.success = true ∧
    (download_music_file c2Env (pstr "downloads")
        (download_music_file c2Env (pstr "downloads") [] 1 (pstr "standard")).2.1
        1 (pstr "standard")).1.file_size =
      (download_music_file c2Env (pstr "downloads") [] 1 (pstr "standard")).1.file_size ∧
    (download_music_file c2Env (pstr "downloads")
        (download_music_file c2Env (pstr "downloads") [] 1 (pstr "standard")).2.1
        1 (pstr "standard")).1.file_path =
      (download_music_file c2Env (pstr "downloads") [] 1 (pstr "standard")).1.file_path ∧
    (download_music_file c2Env (pstr "downloads")
        (download_music_file c2Env (pstr "downloads") [] 1 (pstr "standard")).2.1
        1 (pstr "standard")).2.2.1 +
      (download_music_file c2Env (pstr "downloads")
        (download_music_file c2Env (pstr "downloads") [] 1 (pstr "standard")).2.1
        1 (pstr "standard")).2.2.2 = 3 ∧
    (3 : Nat) ≠ 0 := by
  refine ⟨by decide, by decide, by decide, by decide, by decide, by decide⟩

/-- C2 (amended): when resolution succeeds and the destination file already
exists, `download_music_file` short-circuits: it returns success with the
destination path and the current on-disk byte size, leaves the filesystem
unchanged, performs no file-transfer network call — but it still performs the
three resolution network calls, which always precede the existence check. -/
theorem c2_amended (env : Env) (dld : PyStr) (fs : FS) (mid : Int) (q : PyStr)
    (info : MusicInfo) (n : Nat) (sz : Nat)
    (h : get_music_info env mid q = (.ok info, n))
    (hfs : fsLookup fs (mkFilePath dld info) = some sz) :
    download_music_file env dld fs mid q =
      (⟨true, some (mkFilePath dld info), (sz : Int), []⟩, fs, n, 0) ∧ n = 3 := by
  refine ⟨?_, get_music_info_ok_calls env mid q info n h⟩
  unfold download_music_file
  rw [h]
  simp [hfs]

set_option maxRecDepth 8192 in
/-- C2 witness: the amended theorem applied at the concrete oracle bundle
`c2Env` with the destination file already present. -/
theorem c2_amended_witness :
    download_music_file c2Env (pstr "downloads") c2FS 1 (pstr "standard") =
      (⟨true, some (mkFilePath (pstr "downloads") c2Info), (5 : Int), []⟩, c2FS, 3, 0) :=
  (c2_amended c2Env (pstr "downloads") c2FS 1 (pstr "standard") c2Info 3 5 rfl rfl).1

/-- Inserting into a dict whose keys all equal `k` keeps that invariant. -/
theorem dictInsert_keys (d : List (PyStr × PyStr)) (k val : PyStr)
    (hd : ∀ kv ∈ d, kv.1 = k) : ∀ kv ∈ dictInsert d k val, kv.1 = k := by
  intro kv hkv
  unfold dictInsert at hkv
  split at hkv
  · obtain ⟨kv0, hkv0, hmap⟩ := List.mem_map.1 hkv
    by_cases hk : kv0.1 = k
    · rw [if_pos hk] at hmap
      rw [← hmap]
    · rw [if_neg hk] at hmap
      rw [← hmap]
      exact hd kv0 hkv0
  · rcases List.mem_append.1 hkv with hmem | hmem
    · exact hd kv hmem
    · simp at hmem
      rw [hmem]

/-- The cookie-extraction fold only ever records the key `MUSIC_U`. -/
theorem foldl_musicU_keys : ∀ (pieces : List PyStr) (d0 : List (PyStr × PyStr)),
    (∀ kv ∈ d0, kv.1 = pstr "MUSIC_U") →
    ∀ kv ∈ pieces.foldl
      (fun d piece =>
        if containsSub (pstr "MUSIC_U=") piece then
          dictInsert d (pstr "MUSIC_U") (musicUVal piece)
        else d) d0, kv.1 = pstr "MUSIC_U"
  | [], _, h => h
  | p :: ps, d0, h => by
    rw [List.foldl_cons]
    apply foldl_musicU_keys ps
    by_cases hc : containsSub (pstr "MUSIC_U=") p = true
    · rw [if_pos hc]
      exact dictInsert_keys d0 _ _ h
    · rw [if_neg hc]
      exact h

/-- Every entry of the extracted cookie dict is keyed `MUSIC_U`. -/
theorem extractMusicU_keys (header : PyStr) :
    ∀ kv ∈ extractMusicU header, kv.1 = pstr "MUSIC_U" :=
  foldl_musicU_keys (pySplit header (pstr ", ")) [] (by simp)

/-- C9: one status poll consumes exactly one queued network interaction — no
internal sleeping or retrying — posting the signed `params` produced by
`encrypt_params` over the QR-login payload, and returns the envelope's numeric
status with the cookie dict.  The dict equals the `MUSIC_U` extraction of the
`Set-Cookie` header when the status is 803 and is empty for every other
status; a non-empty dict therefore implies status 803, and its only key is
`MUSIC_U`. -/
theorem c9_poll (unikey requestId : PyStr) (net rest : List NetItem)
    (parse : Except PyStr JVal) (sc : PyStr) (v : JVal) (fields : List (PyStr × JVal))
    (h1 : net = .resp parse sc :: rest) (h2 : parse = .ok v) (h3 : v = .jobj fields) :
    (check_qr_login unikey requestId net).2.1 = rest ∧
    (check_qr_login unikey requestId net).2.2.1 = 1 ∧
    (check_qr_login unikey requestId net).2.2.2 =
      encrypt_params QR_LOGIN_API (qr_login_payload unikey requestId) ∧
    (check_qr_login unikey requestId net).1 =
      .ok ((envelopeCode v).getD (-1),
        if envelopeCode v = some 803 then extractMusicU sc else []) ∧
    (envelopeCode v ≠ some 803 →
      (check_qr_login unikey requestId net).1 = .ok ((envelopeCode v).getD (-1), [])) ∧
    (∀ (c : Int) (dct : List (PyStr × PyStr)),
      (check_qr_login unikey requestId net).1 = .ok (c, dct) → dct ≠ [] →
      c = 803 ∧ dct = extractMusicU sc) ∧
    (∀ kv ∈ extractMusicU sc, kv.1 = pstr "MUSIC_U") := by
  subst h1 h2 h3
  have h4 : (check_qr_login unikey requestId (NetItem.resp (.ok (JVal.jobj fields)) sc :: rest)).1 =
      .ok ((envelopeCode (JVal.jobj fields)).getD (-1),
        if envelopeCode (JVal.jobj fields) = some 803 then extractMusicU sc else []) := rfl
  refine ⟨rfl, rfl, rfl, h4, ?_, ?_, extractMusicU_keys sc⟩
  · intro hne
    rw [h4, if_neg hne]
  · intro c dct hok hdne
    rw [h4] at hok
    have hpair := Except.ok.inj hok
    have hc := congrArg Prod.fst hpair
    have hd := congrArg Prod.snd hpair
    simp only at hc hd
    by_cases hcode : envelopeCode (JVal.jobj fields) = some 803
    · rw [if_pos hcode] at hd
      rw [hcode] at hc
      refine ⟨?_, hd.symm⟩
      rw [← hc]
      rfl
    · rw [if_neg hcode] at hd
      exact absurd hd.symm hdne

/-- C9 witness: the poll theorem applied at the concrete queued 803 response
`c9Net`, whose `Set-Cookie` header carries `MUSIC_U=tok123`. -/
theorem c9_poll_witness :
    (check_qr_login (pstr "uni") (pstr "42") c9Net).2.1 = [] ∧
    (check_qr_login (pstr "uni") (pstr "42") c9Net).2.2.1 = 1 ∧
    (check_qr_login (pstr "uni") (pstr "42") c9Net).1 =
      .ok (803, [(pstr "MUSIC_U", pstr "tok123")]) := by
  have h := c9_poll (pstr "uni") (pstr "42") c9Net []
    (.ok c9RespBody) (pstr "x=1, MUSIC_U=tok123; Max-Age=100, y=2")
    c9RespBody [(pstr "code", .jint 803)] rfl rfl rfl
  refine ⟨h.1, h.2.1, ?_⟩
  rw [h.2.2.2.1]
  rfl

/-- Artist-name extraction inverts the artist-entry constructor. -/
theorem artistNames_map : ∀ l : List PyStr, artistNames (l.map mkArtistJ) = some l
  | [] => rfl
  | s :: rest => by
    show artistNames (mkArtistJ s :: rest.map mkArtistJ) = some (s :: rest)
    unfold artistNames
    have hg : jget (mkArtistJ s) (pstr "name") = some (.jstr s) := rfl
    rw [hg, artistNames_map rest]
    rfl

/-- Track extraction inverts the song-entry constructor. -/
theorem trackOfJ_mkSongJ (i : Int) (m : SongMeta) :
    trackOfJ (mkSongJ i m) = some (mkTrack i m) := by
  have h1 : jget (mkSongJ i m) (pstr "id") = some (.jint i) := rfl
  have h2 : jget (mkSongJ i m) (pstr "name") = some (.jstr m.name) := by
    simp +decide [mkSongJ, jget, lookupJ]
  have h3 : jget (mkSongJ i m) (pstr "ar") = some (.jarr (m.artistList.map mkArtistJ)) := by
    simp +decide [mkSongJ, jget, lookupJ]
  have h4 : jget (mkSongJ i m) (pstr "al") =
      some (.jobj [(pstr "name", .jstr m.album), (pstr "picUrl", .jstr m.picUrl)]) := by
    simp +decide [mkSongJ, jget, lookupJ]
  unfold trackOfJ
  rw [h1, h2, h3, h4]
  simp only [artistNames_map]
  simp +decide [jget, lookupJ, mkTrack]

/-- Applying `mapM` of track extraction over constructed song entries. -/
theorem mapM_trackOfJ (g : Int → SongMeta) : ∀ l : List Int,
    (l.map (fun i => mkSongJ i (g i))).mapM trackOfJ =
      some (l.map (fun i => mkTrack i (g i)))
  | [] => rfl
  | i :: rest => by
    simp only [List.map_cons, List.mapM_cons, trackOfJ_mkSongJ, mapM_trackOfJ g rest]
    rfl

/-- One batch-detail response built from requested ids decodes to exactly the
requested tracks, in request order. -/
theorem processBatch_envelope (g : Int → SongMeta) (b : List Int) :
    processBatch (.ok (songsEnvelope (b.map (fun i => mkSongJ i (g i))))) =
      .ok (b.map (fun i => mkTrack i (g i))) := by
  have hred : processBatch (.ok (songsEnvelope (b.map (fun i => mkSongJ i (g i))))) =
      match (b.map (fun i => mkSongJ i (g i))).mapM trackOfJ with
      | some tracks => .ok tracks
      | none => .error (.apiException (pstr "解析歌单详情响应失败: KeyError")) := rfl
  rw [hred, mapM_trackOfJ g b]

/-- The batching loop, under an order-preserving detail oracle: it returns the
requested tracks in order, every issued batch carries at most 100 ids, and the
issued batches concatenate back to the input id list. -/
theorem fetchBatches_ok (det : List Int → RespOutcome) (g : Int → SongMeta)
    (hdet : ∀ b, det b = .ok (songsEnvelope (b.map (fun i => mkSongJ i (g i))))) :
    ∀ (fuel : Nat) (ids : List Int), ids.length ≤ fuel →
    (fetchBatches det fuel ids).1 = .ok (ids.map (fun i => mkTrack i (g i))) ∧
    (∀ b ∈ (fetchBatches det fuel ids).2, b.length ≤ 100) ∧
    (fetchBatches det fuel ids).2.flatten = ids := by
  intro fuel
  induction fuel with
  | zero =>
    intro ids h
    rw [List.length_eq_zero.1 (Nat.le_zero.1 h)]
    exact ⟨rfl, by simp [fetchBatches], rfl⟩
  | succ f ih =>
    intro ids h
    cases ids with
    | nil => exact ⟨rfl, by simp [fetchBatches], rfl⟩
    | cons i rest =>
      have hstep : fetchBatches det (f + 1) (i :: rest) =
          match processBatch (det ((i :: rest).take 100)) with
          | .error e => (.error e, [(i :: rest).take 100])
          | .ok tracks =>
            match fetchBatches det f ((i :: rest).drop 100) with
            | (.error e, log) => (.error e, (i :: rest).take 100 :: log)
            | (.ok more, log) => (.ok (tracks ++ more), (i :: rest).take 100 :: log) := rfl
      have hdrop : ((i :: rest).drop 100).length ≤ f := by
        rw [List.length_drop]
        simp only [List.length_cons] at h ⊢
        omega
      obtain ⟨ih1, ih2, ih3⟩ := ih ((i :: rest).drop 100) hdrop
      rw [hstep, hdet ((i :: rest).take 100), processBatch_envelope g]
      cases hrec : fetchBatches det f ((i :: rest).drop 100) with
      | mk r log =>
        rw [hrec] at ih1 ih2 ih3
        simp only at ih1 ih2 ih3
        rw [ih1]
        refine ⟨?_, ?_, ?_⟩
        · simp only []
          rw [← List.map_append, List.take_append_drop]
        · intro b hb
          simp only [List.mem_cons] at hb
          rcases hb with hb | hb
          · rw [hb, List.length_take]
            omega
          · exact ih2 b hb
        · simp only [List.flatten_cons, ih3, List.take_append_drop]

/-- C6: for every playlist whose envelope decodes with code 200 and a
well-formed `trackIds` list, and whose batch-detail endpoint returns the
requested tracks in request order, `get_playlist_detail` issues detail calls
in batches of at most 100 ids, the issued batches concatenate to the
playlist's `trackIds` order, and the reassembled track list preserves that
order. -/
theorem c6_playlist_batches (env : PlaylistEnv) (pid : Int)
    (fields : List (PyStr × JVal)) (playlist : JVal) (ids : List Int) (g : Int → SongMeta)
    (h1 : env.playlistResp = .ok (JVal.jobj fields))
    (h2 : envelopeCode (JVal.jobj fields) = some 200)
    (h3 : jObjOrEmpty (jget (JVal.jobj fields) (pstr "playlist")) = playlist)
    (h4 : trackIdsOf playlist = .ok ids)
    (hdet : ∀ b, env.detailResp b = .ok (songsEnvelope (b.map (fun i => mkSongJ i (g i))))) :
    (∀ b ∈ (get_playlist_detail env pid).2, b.length ≤ 100) ∧
    (get_playlist_detail env pid).2.flatten = ids ∧
    ∃ info, (get_playlist_detail env pid).1 = .ok info ∧
      info.tracks = ids.map (fun i => mkTrack i (g i)) := by
  obtain ⟨f1, f2, f3⟩ := fetchBatches_ok env.detailResp g hdet ids.length ids le_rfl
  have hrun : get_playlist_detail env pid =
      ((fetchBatches env.detailResp ids.length ids).1.map
        (fun tracks => (⟨jget playlist (pstr "id"), jget playlist (pstr "name"),
          jget playlist (pstr "coverImgUrl"),
          jStrOr (jget (jObjOrEmpty (jget playlist (pstr "creator"))) (pstr "nickname")) [],
          jget playlist (pstr "trackCount"),
          jStrOr (jget playlist (pstr "description")) [], tracks⟩ : PlaylistInfo)),
       (fetchBatches env.detailResp ids.length ids).2) := by
    unfold get_playlist_detail
    rw [h1]
    simp only [h2, if_pos rfl, h3, h4]
    cases hfb : fetchBatches env.detailResp ids.length ids with
    | mk r log => cases r <;> rfl
  rw [hrun]
  rw [f1]
  exact ⟨f2, f3, _, rfl, rfl⟩

/-- C6 witness: the playlist theorem applied at the concrete bundle `c6Env`
with track ids `[7, 8]`. -/
theorem c6_playlist_batches_witness :
    (get_playlist_detail c6Env 1).2 = [[7, 8]] ∧
    (get_playlist_detail c6Env 1).2.flatten = [7, 8] ∧
    (match (get_playlist_detail c6Env 1).1 with
      | .ok info => info.tracks
      | .error _ => []) = [7, 8].map (fun i => mkTrack i (c6Meta i)) := by
  have h := c6_playlist_batches c6Env 1
    [(pstr "code", .jint 200),
     (pstr "playlist", .jobj [(pstr "trackIds",
        .jarr [.jobj [(pstr "id", .jint 7)], .jobj [(pstr "id", .jint 8)]])])]
    (.jobj [(pstr "trackIds", .jarr [.jobj [(pstr "id", .jint 7)], .jobj [(pstr "id", .jint 8)]])])
    [7, 8] c6Meta rfl (by decide) rfl rfl (fun b => rfl)
  obtain ⟨_, hflat, info, hinfo, htracks⟩ := h
  refine ⟨by decide, hflat, ?_⟩
  rw [hinfo]
  exact htracks

end Netease
